import Mathlib

/-!
Verification development for the INRIX/NPMRDS RITIS processing pipeline of
this repository (`apps/utils/inrix_npmrds_ritis_tools.py` and
`apps/utils/reading_arcgis_service_layers.py`).

The pandas dataframes of the source are embedded as Lean lists of records,
one structure per table shape.  Machine floats of the source carry exact
travel-time and coordinate values here (`ℚ`); timestamps of type
`datetime.time` are minutes after midnight (`Nat`), and `active_end_date`
timestamps are totally ordered tick counts (`Nat`).  Column values that can
be NaN/null in pandas are `Option` values.
-/

namespace Npmrds

/-! ## Time slots (`time_slot` class, lines 405–513) -/

/-- Embedding of the `time_slot` class (lines 405–448): a labelled daily
window with inclusive/exclusive boundary flags and an inside/outside mode. -/
structure time_slot where
  time_start : Nat
  time_end : Nat
  include_start : Bool
  include_end : Bool
  inside_outside : String
  slot_name : String
deriving DecidableEq, Repr

/-- Embedding of `time_slot.get_filter` (lines 451–486) at a single
time-of-day value `t` (minutes after midnight).  The source builds a strict
inside/outside mask and then ORs in the boundary points according to the
include flags.  The source raises `NameError` when `inside_outside` is
neither string; that branch is unreachable for the four slots built by
`define_standard_fhwa_timeslots` and is embedded as `false`. -/
def time_slot.get_filter (ts : time_slot) (t : Nat) : Bool :=
  let base : Bool :=
    if ts.inside_outside = "inside" then
      decide (ts.time_start < t) && decide (t < ts.time_end)
    else if ts.inside_outside = "outside" then
      decide (t < ts.time_start) || decide (ts.time_end < t)
    else
      false
  let withStart : Bool :=
    if ts.include_start then base || decide (t = ts.time_start) else base
  if ts.include_end then withStart || decide (t = ts.time_end) else withStart

/-- The `am_peak` slot of `define_standard_fhwa_timeslots` (lines 903–908):
06:00–10:00, start included, end excluded. -/
def am_peak : time_slot :=
  { time_start := 360, time_end := 600, include_start := true,
    include_end := false, inside_outside := "inside", slot_name := "am_peak" }

/-- The `afternoon_offpeak` slot (lines 910–915): 10:00–16:00, labelled
`midday`. -/
def afternoon_offpeak : time_slot :=
  { time_start := 600, time_end := 960, include_start := true,
    include_end := false, inside_outside := "inside", slot_name := "midday" }

/-- The `pm_peak` slot (lines 917–922): 16:00–20:00. -/
def pm_peak : time_slot :=
  { time_start := 960, time_end := 1200, include_start := true,
    include_end := false, inside_outside := "inside", slot_name := "pm_peak" }

/-- The `night` slot (lines 924–929): outside 06:00–20:00, end included,
labelled `overnight`. -/
def night : time_slot :=
  { time_start := 360, time_end := 1200, include_start := false,
    include_end := true, inside_outside := "outside", slot_name := "overnight" }

/-- The slot list of `define_standard_fhwa_timeslots` (line 931). -/
def all_time_slots : List time_slot := [am_peak, afternoon_offpeak, pm_peak, night]

/-- Sequential masked assignment of the `time_slot` column (the loop at
lines 934–935 calling `add_time_slot_data_to_main_data`): each slot
overwrites the label on the rows its filter selects, so the last matching
slot in list order wins; rows matching no slot keep the initial null. -/
def assign_time_slot (slots : List time_slot) (t : Nat) : Option String :=
  slots.foldl (fun acc ts => if ts.get_filter t then some ts.slot_name else acc) none

/-- The `time_slot` label `define_standard_fhwa_timeslots` (lines 871–954)
gives to an observation whose time of day is `t` minutes after midnight. -/
def define_standard_fhwa_timeslots (t : Nat) : Option String :=
  assign_time_slot all_time_slots t

/-! ## ArcGIS feature-server pagination retry
(`reading_arcgis_service_layers.py`, lines 103–131) -/

/-- The page-size update `query_arcgis_feature_server` performs when a query
returns an error response: `block_size = int(block_size/2)+1` (line 126). -/
def next_block_size (block_size : Nat) : Nat := block_size / 2 + 1

/-- Page size used by `query_arcgis_feature_server` after `k` consecutive
failed queries of the `while not worked` loop (lines 111–131), starting from
the initial `block_size` of line 109. -/
def block_size_seq (start : Nat) : Nat → Nat
  | 0 => start
  | k + 1 => next_block_size (block_size_seq start k)

/-! ## Generic first-occurrence deduplication -/

/-- Worker for `drop_duplicates_first`: drops every row whose key was
already seen earlier in the traversal. -/
def drop_duplicates_first_aux {α κ : Type} [DecidableEq κ] (key : α → κ) :
    List α → List κ → List α
  | [], _ => []
  | x :: xs, seen =>
    if key x ∈ seen then drop_duplicates_first_aux key xs seen
    else x :: drop_duplicates_first_aux key xs (key x :: seen)

/-- List semantics of pandas `drop_duplicates(subset=key)` with the default
`keep='first'`, and of `pd.unique`: keep the first row of each key value, in
order of first appearance. -/
def drop_duplicates_first {α κ : Type} [DecidableEq κ] (key : α → κ) (l : List α) : List α :=
  drop_duplicates_first_aux key l []

/-! ## Raw observations
(`read_one_set_of_raw_data` and `read_batch_of_raw_data`, lines 197–354) -/

/-- One raw 15-minute speed observation after the merge with the TMC
metadata.  `speed` and `travel_time_seconds` can be null in the CSVs. -/
structure RawObs where
  data_origin : String
  tmc_code : String
  measurement_tstamp : String
  speed : Option ℚ
  travel_time_seconds : Option ℚ
deriving DecidableEq, Repr

/-- The deduplication key of lines 266 and 338:
`['data_origin','tmc_code','measurement_tstamp']`. -/
def raw_key (r : RawObs) : String × String × String :=
  (r.data_origin, r.tmc_code, r.measurement_tstamp)

/-- Embedding of `read_one_set_of_raw_data` (lines 197–276) after zip
discovery and chunked CSV reading are abstracted into the list of row
chunks it accumulates: the chunks are concatenated (line 262) and
deduplicated on (data_origin, tmc_code, measurement_tstamp) keeping the
first occurrence (line 266). -/
def read_one_set_of_raw_data (raw_data_chunks : List (List RawObs)) : List RawObs :=
  drop_duplicates_first raw_key raw_data_chunks.flatten

/-- Embedding of `read_batch_of_raw_data` (lines 279–354): one list of
chunks per data source, each read through `read_one_set_of_raw_data`
(lines 325–331); the per-source tables are concatenated (line 334),
deduplicated again on the same key keeping the first occurrence
(line 338), and rows with a null `speed` are dropped (line 344). -/
def read_batch_of_raw_data (chunk_sets : List (List (List RawObs))) : List RawObs :=
  let main_data_parts := chunk_sets.map read_one_set_of_raw_data
  let main_data := drop_duplicates_first raw_key main_data_parts.flatten
  main_data.filter (fun r => r.speed.isSome)

/-! ## FHWA cohort row selection
(`filter_group_summarize_fhwa`, lines 957–1194) -/

/-- A processed `main_data` row as it enters `filter_group_summarize_fhwa`:
`day_of_week` is 0 (Monday) … 6 (Sunday) from `fix_datetime_columns`, and
`time_slot` / `date_window` carry the labels added by
`define_standard_fhwa_timeslots`. -/
structure MainRow where
  data_origin : String
  tmc_code : String
  day_of_week : Nat
  time_slot : String
  date_window : String
deriving DecidableEq, Repr

/-- Step 1 filter (lines 995–1004): `am_peak` slot, `all_days` window, the
all-true `time_filter`, weekdays only. -/
def summary_filter_am_peak (r : MainRow) : Bool :=
  decide (r.time_slot ∈ ["am_peak"]) && decide (r.date_window ∈ ["all_days"]) &&
    true && decide (r.day_of_week ∈ [0, 1, 2, 3, 4])

/-- Step 2 filter (lines 1027–1036): `midday` slot, weekdays only. -/
def summary_filter_midday (r : MainRow) : Bool :=
  decide (r.time_slot ∈ ["midday"]) && decide (r.date_window ∈ ["all_days"]) &&
    true && decide (r.day_of_week ∈ [0, 1, 2, 3, 4])

/-- Step 3 filter (lines 1059–1068): `pm_peak` slot, weekdays only. -/
def summary_filter_pm_peak (r : MainRow) : Bool :=
  decide (r.time_slot ∈ ["pm_peak"]) && decide (r.date_window ∈ ["all_days"]) &&
    true && decide (r.day_of_week ∈ [0, 1, 2, 3, 4])

/-- Step 4 filter (lines 1091–1100): `overnight` slot, `all_days` window;
both `time_filter` and `day_of_week_filter` are `np.repeat(True, …)`, so
the overnight cohort draws from every day of the week. -/
def summary_filter_overnight (r : MainRow) : Bool :=
  decide (r.time_slot ∈ ["overnight"]) && decide (r.date_window ∈ ["all_days"]) &&
    true && true

/-- Step 5 filter (lines 1123–1132): the three daytime slots, restricted to
Saturday (5) and Sunday (6). -/
def summary_filter_weekends (r : MainRow) : Bool :=
  decide (r.time_slot ∈ ["am_peak", "midday", "pm_peak"]) &&
    decide (r.date_window ∈ ["all_days"]) && true && decide (r.day_of_week ∈ [5, 6])

/-- Step 6 filter (lines 1158–1167): all four masks are all-true. -/
def summary_filter_alltime (_r : MainRow) : Bool := true

/-- Rows feeding the `am_peak` cohort summary: the
`main_data.loc[summary_filter]` selection performed by
`calc_summaries_pipeline` (line 717) for step 1.  The `groupby` and
percentile aggregation that follow are not needed by the cohort-membership
claims and are elided. -/
def summarized_data_ampeak (main_data : List MainRow) : List MainRow :=
  main_data.filter summary_filter_am_peak

/-- Rows feeding the `midday` cohort summary (step 2). -/
def summarized_data_midday (main_data : List MainRow) : List MainRow :=
  main_data.filter summary_filter_midday

/-- Rows feeding the `pm_peak` cohort summary (step 3). -/
def summarized_data_pmpeak (main_data : List MainRow) : List MainRow :=
  main_data.filter summary_filter_pm_peak

/-- Rows feeding the `overnight` cohort summary (step 4). -/
def summarized_data_overnight (main_data : List MainRow) : List MainRow :=
  main_data.filter summary_filter_overnight

/-- Rows feeding the `weekends` cohort summary (step 5). -/
def summarized_data_weekends (main_data : List MainRow) : List MainRow :=
  main_data.filter summary_filter_weekends

/-- Rows feeding the `alltime` cohort summary (step 6). -/
def summarized_data_alltime (main_data : List MainRow) : List MainRow :=
  main_data.filter summary_filter_alltime

/-- The six cohort row selections of `filter_group_summarize_fhwa`, tagged
with their `summary_type` names, in the concatenation order of
lines 1184–1192. -/
def filter_group_summarize_fhwa (main_data : List MainRow) : List (String × List MainRow) :=
  [("am_peak", summarized_data_ampeak main_data),
   ("midday", summarized_data_midday main_data),
   ("pm_peak", summarized_data_pmpeak main_data),
   ("overnight", summarized_data_overnight main_data),
   ("weekends", summarized_data_weekends main_data),
   ("alltime", summarized_data_alltime main_data)]

/-- Concrete chunks for the C9 witness: the first data source contains a
duplicated combination whose two rows disagree on speed, plus a row with a
null speed; a second data source repeats a tmc/timestamp under a different
data origin. -/
def c9_chunk_sets : List (List (List RawObs)) :=
  [[[{ data_origin := "inrix", tmc_code := "112+04382",
       measurement_tstamp := "2019-01-01 00:00:00", speed := some 50,
       travel_time_seconds := some 10 },
     { data_origin := "inrix", tmc_code := "112+04382",
       measurement_tstamp := "2019-01-01 00:00:00", speed := some 60,
       travel_time_seconds := some 12 }],
    [{ data_origin := "inrix", tmc_code := "112+04383",
       measurement_tstamp := "2019-01-01 00:00:00", speed := none,
       travel_time_seconds := some 11 }]],
   [[{ data_origin := "npmrds_from_inrix_trucks", tmc_code := "112+04382",
       measurement_tstamp := "2019-01-01 00:00:00", speed := some 40,
       travel_time_seconds := some 14 }]]]

/-- A Saturday observation in the overnight slot. -/
def weekend_overnight_row : MainRow :=
  { data_origin := "inrix", tmc_code := "112+04382", day_of_week := 5,
    time_slot := "overnight", date_window := "all_days" }

/-! ## TMC metadata
(`read_csv_get_specific_road_segments`, lines 92–195) -/

/-- One row of a `TMC_Identification.csv` table, after the column renames of
lines 158–161.  `road` can be null in the CSV (line 155 fills it with the
empty string); `active_end_date` timestamps are totally ordered tick
counts; the latitude/longitude columns carry the segment endpoints used by
`make_link`. -/
structure TmcRow where
  tmc_code : String
  road : Option String
  active_end_date : Nat
  data_origin : String
  start_latitude : ℚ
  start_longitude : ℚ
  end_latitude : ℚ
  end_longitude : ℚ
deriving DecidableEq, Repr

/-- Substring containment on character lists: the semantics of pandas
`road.str.contains(road_str)` (line 164) for filter strings without regex
metacharacters, for which the interpolated pattern is a literal substring
search. -/
def str_contains_sub : List Char → List Char → Bool
  | [], pat => pat.isEmpty
  | c :: t, pat => pat.isPrefixOf (c :: t) || str_contains_sub t pat

/-- The road-name filter of line 164 on a single TMC row (after the
`fillna('')` of line 155 the `road` column is never null). -/
def road_contains (r : TmcRow) (road_str : String) : Bool :=
  str_contains_sub (r.road.getD "").data road_str.data

/-- Ordering by `active_end_date`: the effect the
`sort_values(by=['tmc_code','active_end_date'])` of lines 169–171 has
inside each tmc_code group.  The leading tmc_code sort key only determines
the order of the output rows across groups, which no property here depends
on, so the embedding sorts each group by date directly. -/
def tmc_date_le (a b : TmcRow) : Prop :=
  a.active_end_date ≤ b.active_end_date

instance : DecidableRel tmc_date_le := fun a b =>
  Nat.decLe a.active_end_date b.active_end_date

instance : IsTotal TmcRow tmc_date_le :=
  ⟨fun a b => Nat.le_total a.active_end_date b.active_end_date⟩

instance : IsTrans TmcRow tmc_date_le :=
  ⟨fun _ _ _ h1 h2 => Nat.le_trans h1 h2⟩

/-- The row `groupby('tmc_code').last()` (line 172) keeps for TMC code `t`:
the last row of that code's group once the group is in ascending
`active_end_date` order (lines 169–171). -/
def tmc_group_last (tmc_data : List TmcRow) (t : String) : Option TmcRow :=
  (List.insertionSort tmc_date_le
    (tmc_data.filter (fun r => decide (r.tmc_code = t)))).getLast?

/-- Embedding of the TMC-metadata portion of
`read_csv_get_specific_road_segments` (lines 147–176): the
`TMC_Identification.csv` rows get the `data_origin` column and a null-free
`road` (lines 154–155), are filtered to road names containing `road_str`
(line 164), sorted by (tmc_code, active_end_date) (lines 169–171), and
reduced to one row per tmc_code by `groupby('tmc_code').last()` (line 172).
`groupby.last` keeps the last non-null value per column; every column of
this embedding is non-null after the road fill, so it keeps the last row of
each group wholesale.  The chunked raw-data join that follows
(lines 180–188) is not part of the returned TMC metadata. -/
def read_csv_get_specific_road_segments (data_origin : String)
    (tmc_csv : List TmcRow) (road_str : String) : List TmcRow :=
  let tmc_data := tmc_csv.map (fun r =>
    { r with data_origin := data_origin, road := some (r.road.getD "") })
  let tmc_data := tmc_data.filter (fun r => road_contains r road_str)
  let keys := drop_duplicates_first id (tmc_data.map (fun r => r.tmc_code))
  keys.filterMap (tmc_group_last tmc_data)

/-- The rows competing for TMC code `t` in
`read_csv_get_specific_road_segments`: the preprocessed rows that match the
road filter and carry that code. -/
def tmc_candidates (data_origin : String) (tmc_csv : List TmcRow)
    (road_str : String) (t : String) : List TmcRow :=
  ((tmc_csv.map (fun r =>
      { r with data_origin := data_origin, road := some (r.road.getD "") })).filter
    (fun r => road_contains r road_str)).filter (fun r => decide (r.tmc_code = t))

/-- Concrete `TMC_Identification` rows for the C6 witness: one duplicated
TMC code with two active_end_date values, plus a row on another road that
the road filter drops. -/
def c6_tmc_csv : List TmcRow :=
  [{ tmc_code := "112+04382", road := some "I-35", active_end_date := 10,
     data_origin := "", start_latitude := 0, start_longitude := 0,
     end_latitude := 1, end_longitude := 1 },
   { tmc_code := "112+04382", road := some "I-35", active_end_date := 20,
     data_origin := "", start_latitude := 0, start_longitude := 0,
     end_latitude := 2, end_longitude := 2 },
   { tmc_code := "112+04383", road := some "US-77", active_end_date := 5,
     data_origin := "", start_latitude := 3, start_longitude := 3,
     end_latitude := 4, end_longitude := 4 }]

/-! ## FHWA summary rows and reliability scoring
(`calculate_standard_reliabily_mixed_traffic`, lines 1196–1277, and
`calculate_standard_reliability_trucks`, lines 1279–1358) -/

/-- One row of `all_summaries_concat` as produced by
`filter_group_summarize_fhwa`: the grouping keys (line 1009), the
`summary_type` tag (line 721), the observation count `count_obs`
(line 652) and the travel-time percentiles the reliability computations
read (lines 670–673; the other aggregate columns play no role in the
claims and are omitted). -/
structure SummaryRow where
  tmc_code : String
  data_origin : String
  summary_type : String
  count_obs : Nat
  ttime_50p : ℚ
  ttime_80p : ℚ
  ttime_95p : ℚ
deriving DecidableEq, Repr

/-- One scored reliability row: the column layout of lines 1271–1275 and
1352–1356. -/
structure ScoredRow where
  tmc_code : String
  data_origin : String
  Reliability_Type : String
  RawDataRows : Nat
  SummaryCount : Nat
  Reliability : ℚ
  Reliable : Bool
deriving DecidableEq, Repr

/-- Maximum of a list of rationals: the pandas `max` aggregation on a
non-empty group (the `[]` case never arises for group keys drawn from the
grouped rows). -/
def qmax : List ℚ → ℚ
  | [] => 0
  | [x] => x
  | x :: y :: xs => max x (qmax (y :: xs))

/-- The cohort/data-origin row selection shared by the two reliability
scorers (lines 1231–1238 / 1312–1319). -/
def rs_selected (cohorts : List String) (origin_ok : String → Bool)
    (all_summaries_concat : List SummaryRow) : List SummaryRow :=
  all_summaries_concat.filter (fun r =>
    decide (r.summary_type ∈ cohorts) && origin_ok r.data_origin)

/-- The rows of one (tmc_code, data_origin) group of the `groupby` at
lines 1248–1249 / 1329–1330. -/
def rs_group (cohorts : List String) (origin_ok : String → Bool)
    (all_summaries_concat : List SummaryRow) (k : String × String) :
    List SummaryRow :=
  (rs_selected cohorts origin_ok all_summaries_concat).filter (fun r =>
    decide (r.tmc_code = k.1) && decide (r.data_origin = k.2))

/-- The aggregated row the `groupby(...).agg(...)` produces for one group
key, together with the `Reliability_Type` and `Reliable` columns. -/
def rs_score_key (cohorts : List String) (origin_ok : String → Bool)
    (ratio_num : SummaryRow → ℚ) (rel_type : String)
    (all_summaries_concat : List SummaryRow) (k : String × String) : ScoredRow :=
  let grp := rs_group cohorts origin_ok all_summaries_concat k
  let ratios := grp.map (fun r => ratio_num r / r.ttime_50p)
  { tmc_code := k.1, data_origin := k.2, Reliability_Type := rel_type,
    RawDataRows := (grp.map (fun r => r.count_obs)).sum,
    SummaryCount := ratios.length,
    Reliability := qmax ratios,
    Reliable := decide (qmax ratios < 3 / 2) }

/-- Shared shape of the two reliability scorers: filter the summaries to
the relevant cohorts and data origins (lines 1231–1238 / 1312–1319),
compute the travel-time percentile ratio per summary row (lines 1242–1244 /
1323–1325), group by (tmc_code, data_origin) with summed `count_obs`,
ratio count and ratio maximum (lines 1248–1257 / 1329–1338), keep only
groups whose `SummaryCount` equals the number of required cohorts
(lines 1262–1265 / 1343–1346), and flag groups whose maximum ratio is
below 1.5 as reliable (lines 1268–1269 / 1349–1350; the source adds the
flag after the count filter, which yields the same rows).  The group keys
appear here in first-occurrence order; pandas sorts them, which no
property below depends on.  `SummaryCount`, a pandas `count` of non-null
ratios, is the group size because the embedded ratios are total. -/
def reliability_scoring (cohorts : List String) (origin_ok : String → Bool)
    (ratio_num : SummaryRow → ℚ) (rel_type : String) (required : Nat)
    (all_summaries_concat : List SummaryRow) : List ScoredRow :=
  let keys := drop_duplicates_first id
    ((rs_selected cohorts origin_ok all_summaries_concat).map
      (fun r => (r.tmc_code, r.data_origin)))
  (keys.map
    (rs_score_key cohorts origin_ok ratio_num rel_type all_summaries_concat)).filter
    (fun s => decide (s.SummaryCount = required))

/-- Embedding of `calculate_standard_reliabily_mixed_traffic`
(lines 1196–1277): cohorts am_peak, midday, pm_peak and weekends; data
origins `inrix` and `npmrds_from_inrix_trucks_and_passveh`; ratio
`ttime_80p / ttime_50p`; four summaries required.  The source's
`main_tmc_data` parameter is unused there and kept here for fidelity. -/
def calculate_standard_reliabily_mixed_traffic
    (all_summaries_concat : List SummaryRow) (_main_tmc_data : List TmcRow) :
    List ScoredRow :=
  reliability_scoring ["am_peak", "midday", "pm_peak", "weekends"]
    (fun d => decide (d ∈ ["inrix", "npmrds_from_inrix_trucks_and_passveh"]))
    (fun r => r.ttime_80p) "Mixed_Traffic" 4 all_summaries_concat

/-- Embedding of `calculate_standard_reliability_trucks`
(lines 1279–1358): cohorts am_peak, midday, pm_peak, overnight and
weekends; data origin `npmrds_from_inrix_trucks` only; ratio
`ttime_95p / ttime_50p`; five summaries required. -/
def calculate_standard_reliability_trucks
    (all_summaries_concat : List SummaryRow) (_main_tmc_data : List TmcRow) :
    List ScoredRow :=
  reliability_scoring ["am_peak", "midday", "pm_peak", "overnight", "weekends"]
    (fun d => decide (d = "npmrds_from_inrix_trucks"))
    (fun r => r.ttime_95p) "Truck_Traffic" 5 all_summaries_concat

/-- At most one summary row per (tmc_code, data_origin, summary_type).
`filter_group_summarize_fhwa` guarantees this: each cohort summary is one
`groupby(['data_origin','tmc_code'])` aggregation, producing at most one
row per pair, and the six cohorts carry distinct `summary_type` tags. -/
def summaries_wellformed (rows : List SummaryRow) : Prop :=
  (rows.map (fun r => (r.tmc_code, r.data_origin, r.summary_type))).Nodup

instance summaries_wellformed_decidable (rows : List SummaryRow) :
    Decidable (summaries_wellformed rows) :=
  inferInstanceAs (Decidable ((rows.map
    (fun r : SummaryRow => (r.tmc_code, r.data_origin, r.summary_type))).Nodup))

/-- Summary rows for the C2 witness: one complete mixed-traffic pair. -/
def c2_summaries : List SummaryRow :=
  [{ tmc_code := "t1", data_origin := "inrix", summary_type := "am_peak",
     count_obs := 10, ttime_50p := 1, ttime_80p := 1, ttime_95p := 1 },
   { tmc_code := "t1", data_origin := "inrix", summary_type := "midday",
     count_obs := 20, ttime_50p := 1, ttime_80p := 2, ttime_95p := 2 },
   { tmc_code := "t1", data_origin := "inrix", summary_type := "pm_peak",
     count_obs := 30, ttime_50p := 1, ttime_80p := 1, ttime_95p := 1 },
   { tmc_code := "t1", data_origin := "inrix", summary_type := "weekends",
     count_obs := 40, ttime_50p := 1, ttime_80p := 1, ttime_95p := 1 }]

/-- Summary rows for the C3 witness: one complete truck pair. -/
def c3_summaries : List SummaryRow :=
  [{ tmc_code := "t1", data_origin := "npmrds_from_inrix_trucks",
     summary_type := "am_peak", count_obs := 1, ttime_50p := 1,
     ttime_80p := 1, ttime_95p := 1 },
   { tmc_code := "t1", data_origin := "npmrds_from_inrix_trucks",
     summary_type := "midday", count_obs := 2, ttime_50p := 1,
     ttime_80p := 1, ttime_95p := 3 },
   { tmc_code := "t1", data_origin := "npmrds_from_inrix_trucks",
     summary_type := "pm_peak", count_obs := 3, ttime_50p := 1,
     ttime_80p := 1, ttime_95p := 1 },
   { tmc_code := "t1", data_origin := "npmrds_from_inrix_trucks",
     summary_type := "overnight", count_obs := 4, ttime_50p := 1,
     ttime_80p := 1, ttime_95p := 1 },
   { tmc_code := "t1", data_origin := "npmrds_from_inrix_trucks",
     summary_type := "weekends", count_obs := 5, ttime_50p := 1,
     ttime_80p := 1, ttime_95p := 1 }]

/-! ## Overall reliability assembly
(`calculate_standard_reliabilities`, lines 1360–1457, and
`find_missing_tmc_codes`, lines 1460–1493) -/

/-- A row of the combined reliability table.  Scored rows carry every
column; re-added missing segments are built with only `tmc_code` and
`data_origin` (lines 1422–1424 / 1442–1444), and the `pd.concat` of
lines 1426–1429 / 1446–1449 fills their remaining columns with NaN —
embedded as `none`. -/
structure RelRow where
  tmc_code : String
  data_origin : String
  Reliability_Type : Option String
  RawDataRows : Option Nat
  SummaryCount : Option Nat
  Reliability : Option ℚ
  Reliable : Option Bool
deriving DecidableEq, Repr

/-- A scored row viewed as a row of the combined table. -/
def scored_to_rel (s : ScoredRow) : RelRow :=
  { tmc_code := s.tmc_code, data_origin := s.data_origin,
    Reliability_Type := some s.Reliability_Type,
    RawDataRows := some s.RawDataRows, SummaryCount := some s.SummaryCount,
    Reliability := some s.Reliability, Reliable := some s.Reliable }

/-- A re-added missing segment: only `tmc_code` and `data_origin` are set,
the metric columns are null. -/
def missing_rel_row (t origin : String) : RelRow :=
  { tmc_code := t, data_origin := origin, Reliability_Type := none,
    RawDataRows := none, SummaryCount := none, Reliability := none,
    Reliable := none }

/-- Embedding of `find_missing_tmc_codes` (lines 1460–1493): the unique
tmc_codes of `main_data` in first-appearance order (`pd.unique`,
line 1481), keeping those that do not occur among the tmc_codes of
`ref_data` (lines 1488–1491). -/
def find_missing_tmc_codes (main_data : List MainRow)
    (ref_data : List ScoredRow) : List String :=
  (drop_duplicates_first id (main_data.map (fun r => r.tmc_code))).filter
    (fun t => decide (t ∉ ref_data.map (fun s => s.tmc_code)))

/-- One branch of `calculate_standard_reliabilities` (lines 1413–1431 for
mixed traffic, 1434–1451 for trucks): find the tmc_codes missing from the
scored table, read the shared `data_origin` from the first scored row
(`.values[0]`, lines 1424 / 1444 — an IndexError when the scored table is
empty, embedded as `Except.error`), and append one null-metric row per
missing code to the scored table. -/
def reliability_branch (scored : List ScoredRow) (main_data : List MainRow) :
    Except String (List RelRow) :=
  let missing := find_missing_tmc_codes main_data scored
  match scored.head? with
  | none => Except.error "IndexError: index 0 is out of bounds for axis 0 with size 0"
  | some s0 =>
    Except.ok (scored.map scored_to_rel ++
      missing.map (fun t => missing_rel_row t s0.data_origin))

/-- Embedding of `calculate_standard_reliabilities` (lines 1360–1457):
depending on the two flags, run the mixed-traffic and the truck scorer,
re-add each branch's missing segments, and concatenate the branch tables
(lines 1454–1455).  Python raises where this embedding returns
`Except.error`: the IndexError of `reliability_branch`, and the ValueError
of `pd.concat` on an empty list of frames when both flags are false. -/
def calculate_standard_reliabilities (all_summaries_concat : List SummaryRow)
    (main_data : List MainRow) (main_tmc_data : List TmcRow)
    (calc_mixed_traf_rel calc_truck_rel : Bool) : Except String (List RelRow) :=
  let mixed_dfs : Except String (List (List RelRow)) :=
    if calc_mixed_traf_rel then
      match reliability_branch
          (calculate_standard_reliabily_mixed_traffic all_summaries_concat
            main_tmc_data) main_data with
      | Except.error e => Except.error e
      | Except.ok part => Except.ok [part]
    else Except.ok []
  match mixed_dfs with
  | Except.error e => Except.error e
  | Except.ok dfs1 =>
    let truck_dfs : Except String (List (List RelRow)) :=
      if calc_truck_rel then
        match reliability_branch
            (calculate_standard_reliability_trucks all_summaries_concat
              main_tmc_data) main_data with
        | Except.error e => Except.error e
        | Except.ok part => Except.ok [part]
      else Except.ok []
    match truck_dfs with
    | Except.error e => Except.error e
    | Except.ok dfs2 =>
      if (dfs1 ++ dfs2).isEmpty then
        Except.error "ValueError: No objects to concatenate"
      else Except.ok (dfs1 ++ dfs2).flatten

/-- Raw rows for the C1 witness: segment t1 is fully scored, segment t2
has data but no complete summary set. -/
def c1_main_data : List MainRow :=
  [{ data_origin := "inrix", tmc_code := "t1", day_of_week := 0,
     time_slot := "am_peak", date_window := "all_days" },
   { data_origin := "inrix", tmc_code := "t2", day_of_week := 0,
     time_slot := "am_peak", date_window := "all_days" }]

/-- The combined reliability table for the C1 witness inputs: the scored
row for t1 followed by the null-metric re-added row for t2. -/
def c1_expected_out : List RelRow :=
  [{ tmc_code := "t1", data_origin := "inrix",
     Reliability_Type := some "Mixed_Traffic", RawDataRows := some 100,
     SummaryCount := some 4, Reliability := some 2, Reliable := some false },
   { tmc_code := "t2", data_origin := "inrix", Reliability_Type := none,
     RawDataRows := none, SummaryCount := none, Reliability := none,
     Reliable := none }]

/-! ## Geometry resolution
(`make_link`, lines 753–774, and `add_geometries_to_summaries`,
lines 776–869) -/

/-- A geometric feature.  The embedding keeps only what the claims need:
line strings given by their (longitude, latitude) coordinate sequence. -/
inductive Geom where
  | lineString (points : List (ℚ × ℚ)) : Geom
deriving DecidableEq, Repr

/-- One row of the NPMRDS shapefile after the `Tmc → tmc_code` rename
(lines 805–806). -/
structure GeoRow where
  tmc_code : String
  geometry : Geom
deriving DecidableEq, Repr

/-- An output row of `add_geometries_to_summaries`: the input summary row
plus the `geom_final` and `geom_final_type` columns (lines 842–855). -/
structure SummaryGeomRow where
  row : SummaryRow
  geom_final : Geom
  geom_final_type : String
deriving DecidableEq, Repr

/-- Embedding of `make_link` (lines 753–774): the straight line from
(start_longitude, start_latitude) to (end_longitude, end_latitude) of a
TMC metadata row. -/
def make_link (m : TmcRow) : Geom :=
  Geom.lineString [(m.start_longitude, m.start_latitude),
    (m.end_longitude, m.end_latitude)]

/-- The simplified geometry the `temp_geoms` merge of lines 815–833
attaches to a (data_origin, tmc_code) pair: `make_link` on the TMC
metadata row of that pair.  The pipeline guarantees at most one metadata
row per pair (per-file dedup in `read_csv_get_specific_road_segments` and
one file per data origin), so the left merge acts as this lookup; when the
pair is absent pandas produces NaN coordinates and `make_link` builds a
degenerate line, embedded as an empty line string and ruled out by the
coverage hypothesis of the theorem below. -/
def geometry_simplified (main_tmc_data : List TmcRow) (d t : String) : Geom :=
  match main_tmc_data.find? (fun m =>
    decide (m.data_origin = d) && decide (m.tmc_code = t)) with
  | some m => make_link m
  | none => Geom.lineString []

/-- Embedding of `add_geometries_to_summaries` (lines 776–869) without the
CRS conversion and the WKT export, which the claims do not mention.  The
left merge with the shapefile (lines 809–812) yields one output row per
matching shapefile row, or a single row with a null geometry;
`geom_final` prefers the shapefile geometry (line 842) and falls back to
the simplified straight line on the null-geometry rows (lines 843–844);
`geom_final_type` tags which source was used (lines 853–855). -/
def add_geometries_to_summaries (summarized_data : List SummaryRow)
    (main_tmc_data : List TmcRow) (npmrds_geodata : List GeoRow) :
    List SummaryGeomRow :=
  summarized_data.flatMap (fun s =>
    let geo_matches := npmrds_geodata.filter
      (fun g => decide (g.tmc_code = s.tmc_code))
    if geo_matches.isEmpty then
      [{ row := s,
         geom_final := geometry_simplified main_tmc_data s.data_origin s.tmc_code,
         geom_final_type := "simplified_tmc_shape" }]
    else
      geo_matches.map (fun g =>
        { row := s, geom_final := g.geometry,
          geom_final_type := "original_tmc_shape" }))

/-- Summary rows for the C7 witness: t1 has a shapefile geometry, t2 only
has TMC metadata coordinates. -/
def c7_summaries : List SummaryRow :=
  [{ tmc_code := "t1", data_origin := "inrix", summary_type := "am_peak",
     count_obs := 1, ttime_50p := 1, ttime_80p := 1, ttime_95p := 1 },
   { tmc_code := "t2", data_origin := "inrix", summary_type := "am_peak",
     count_obs := 1, ttime_50p := 1, ttime_80p := 1, ttime_95p := 1 }]

/-- Shapefile rows for the C7 witness. -/
def c7_geodata : List GeoRow :=
  [{ tmc_code := "t1", geometry := Geom.lineString [(0, 0), (1, 1), (2, 1)] }]

/-- TMC metadata for the C7 witness. -/
def c7_tmc_data : List TmcRow :=
  [{ tmc_code := "t2", road := some "I-35", active_end_date := 1,
     data_origin := "inrix", start_latitude := 5, start_longitude := 6,
     end_latitude := 7, end_longitude := 8 }]

/-! ## Theorems -/

theorem mem_of_mem_dropDupAux {α κ : Type} [DecidableEq κ] (key : α → κ)
    (l : List α) : ∀ (seen : List κ) (r : α),
    r ∈ drop_duplicates_first_aux key l seen → r ∈ l := by
  induction l with
  | nil => intro seen r h; simp [drop_duplicates_first_aux] at h
  | cons x xs ih =>
    intro seen r h
    by_cases hx : key x ∈ seen
    · simp only [drop_duplicates_first_aux, if_pos hx] at h
      exact List.mem_cons_of_mem x (ih seen r h)
    · simp only [drop_duplicates_first_aux, if_neg hx] at h
      rcases List.mem_cons.mp h with rfl | h2
      · exact List.mem_cons_self _ _
      · exact List.mem_cons_of_mem x (ih _ r h2)

theorem dropDupAux_keys_nodup {α κ : Type} [DecidableEq κ] (key : α → κ)
    (l : List α) : ∀ (seen : List κ),
    ((drop_duplicates_first_aux key l seen).map key).Nodup ∧
    ∀ k ∈ (drop_duplicates_first_aux key l seen).map key, k ∉ seen := by
  induction l with
  | nil => intro seen; simp [drop_duplicates_first_aux]
  | cons x xs ih =>
    intro seen
    by_cases hx : key x ∈ seen
    · simp only [drop_duplicates_first_aux, if_pos hx]
      exact ih seen
    · simp only [drop_duplicates_first_aux, if_neg hx, List.map_cons]
      obtain ⟨h1, h2⟩ := ih (key x :: seen)
      refine ⟨List.nodup_cons.mpr ⟨fun hmem => (h2 _ hmem) (List.mem_cons_self _ _), h1⟩, ?_⟩
      intro k hk
      rcases List.mem_cons.mp hk with rfl | hk2
      · exact hx
      · exact fun hkseen => (h2 k hk2) (List.mem_cons_of_mem _ hkseen)

theorem find?_dropDupAux {α κ : Type} [DecidableEq κ] (key : α → κ)
    (l : List α) : ∀ (seen : List κ) (k : κ), k ∉ seen →
    (drop_duplicates_first_aux key l seen).find? (fun x => decide (key x = k)) =
      l.find? (fun x => decide (key x = k)) := by
  induction l with
  | nil => intro seen k _; rfl
  | cons x xs ih =>
    intro seen k hk
    by_cases hx : key x ∈ seen
    · have hne : ¬ key x = k := fun he => hk (he ▸ hx)
      simp only [drop_duplicates_first_aux, if_pos hx]
      rw [List.find?_cons_of_neg _ (by simp [hne]), ih seen k hk]
    · simp only [drop_duplicates_first_aux, if_neg hx]
      by_cases hxk : key x = k
      · rw [List.find?_cons_of_pos _ (by simp [hxk]),
          List.find?_cons_of_pos _ (by simp [hxk])]
      · rw [List.find?_cons_of_neg _ (by simp [hxk]),
          List.find?_cons_of_neg _ (by simp [hxk])]
        exact ih (key x :: seen) k (by
          intro hmem
          rcases List.mem_cons.mp hmem with rfl | h2
          · exact hxk rfl
          · exact hk h2)

theorem key_mem_dropDupAux {α κ : Type} [DecidableEq κ] (key : α → κ)
    (l : List α) : ∀ (seen : List κ) (a : α), a ∈ l → key a ∉ seen →
    ∃ r ∈ drop_duplicates_first_aux key l seen, key r = key a := by
  induction l with
  | nil => intro seen a ha _; simp at ha
  | cons x xs ih =>
    intro seen a ha hk
    by_cases hx : key x ∈ seen
    · simp only [drop_duplicates_first_aux, if_pos hx]
      rcases List.mem_cons.mp ha with rfl | ha2
      · exact absurd hx hk
      · exact ih seen a ha2 hk
    · simp only [drop_duplicates_first_aux, if_neg hx]
      by_cases hax : key a = key x
      · exact ⟨x, List.mem_cons_self _ _, hax.symm⟩
      · rcases List.mem_cons.mp ha with rfl | ha2
        · exact absurd rfl hax
        · obtain ⟨r, hr, hkey⟩ := ih (key x :: seen) a ha2 (by
            intro hmem
            rcases List.mem_cons.mp hmem with h | h
            · exact hax h
            · exact hk h)
          exact ⟨r, List.mem_cons_of_mem _ hr, hkey⟩

theorem find?_eq_of_nodup_keys {α κ : Type} [DecidableEq κ] (key : α → κ)
    (l : List α) (h : (l.map key).Nodup) (r : α) (hr : r ∈ l) :
    l.find? (fun x => decide (key x = key r)) = some r := by
  induction l with
  | nil => simp at hr
  | cons x xs ih =>
    rw [List.map_cons] at h
    by_cases hxk : key x = key r
    · rw [List.find?_cons_of_pos _ (by simp [hxk])]
      rcases List.mem_cons.mp hr with rfl | hr2
      · rfl
      · exact absurd (hxk ▸ List.mem_map_of_mem key hr2) (List.nodup_cons.mp h).1
    · rw [List.find?_cons_of_neg _ (by simp [hxk])]
      rcases List.mem_cons.mp hr with rfl | hr2
      · exact absurd rfl hxk
      · exact ih (List.nodup_cons.mp h).2 hr2

theorem dropDup_first_occurrence {α κ : Type} [DecidableEq κ] (key : α → κ)
    (l : List α) (r : α) (h : r ∈ drop_duplicates_first key l) :
    l.find? (fun x => decide (key x = key r)) = some r := by
  have h1 : (drop_duplicates_first key l).find? (fun x => decide (key x = key r)) = some r :=
    find?_eq_of_nodup_keys key _ ((dropDupAux_keys_nodup key l []).1) r h
  simp only [drop_duplicates_first] at h1
  rwa [find?_dropDupAux key l [] (key r) (by simp)] at h1

theorem find?_read_one_set_parts (chunk_sets : List (List (List RawObs)))
    (k : String × String × String) :
    ((chunk_sets.map read_one_set_of_raw_data).flatten).find?
        (fun x => decide (raw_key x = k)) =
      ((chunk_sets.map List.flatten).flatten).find? (fun x => decide (raw_key x = k)) := by
  induction chunk_sets with
  | nil => rfl
  | cons s rest ih =>
    simp only [List.map_cons, List.flatten_cons]
    rw [List.find?_append, List.find?_append, ih]
    have : (read_one_set_of_raw_data s).find? (fun x => decide (raw_key x = k)) =
        s.flatten.find? (fun x => decide (raw_key x = k)) :=
      find?_dropDupAux raw_key s.flatten [] k (by simp)
    rw [this]

/-- C9: every row returned by `read_batch_of_raw_data` has a non-null
`speed`; the (data_origin, tmc_code, measurement_tstamp) combination is
unique across the returned rows; and every returned row is the first
occurrence of its combination in the concatenation of all input chunks, so
when duplicates exist it is the first occurrence that is kept. -/
theorem read_batch_dedup_and_speed (chunk_sets : List (List (List RawObs)))
    (r : RawObs) (h : r ∈ read_batch_of_raw_data chunk_sets) :
    r.speed ≠ none ∧
    ((read_batch_of_raw_data chunk_sets).map raw_key).Nodup ∧
    ((chunk_sets.map List.flatten).flatten).find?
      (fun x => decide (raw_key x = raw_key r)) = some r := by
  have hmem := List.mem_filter.mp h
  refine ⟨?_, ?_, ?_⟩
  · have := hmem.2
    cases hs : r.speed
    · rw [hs] at this; simp at this
    · simp [hs]
  · have hnodup : ((drop_duplicates_first raw_key
        ((chunk_sets.map read_one_set_of_raw_data).flatten)).map raw_key).Nodup :=
      (dropDupAux_keys_nodup raw_key _ []).1
    exact hnodup.sublist ((List.filter_sublist _).map raw_key)
  · have h1 := dropDup_first_occurrence raw_key
      ((chunk_sets.map read_one_set_of_raw_data).flatten) r hmem.1
    rwa [find?_read_one_set_parts chunk_sets (raw_key r)] at h1

/-- Witness for C9: the first of the two duplicated inrix rows is returned,
with its non-null speed, and it is the first occurrence in chunk order. -/
theorem read_batch_dedup_and_speed_witness :
    ({ data_origin := "inrix", tmc_code := "112+04382",
       measurement_tstamp := "2019-01-01 00:00:00", speed := some 50,
       travel_time_seconds := some 10 } : RawObs).speed ≠ none ∧
    ((read_batch_of_raw_data c9_chunk_sets).map raw_key).Nodup ∧
    ((c9_chunk_sets.map List.flatten).flatten).find?
      (fun x => decide (raw_key x =
        raw_key { data_origin := "inrix", tmc_code := "112+04382",
                  measurement_tstamp := "2019-01-01 00:00:00", speed := some 50,
                  travel_time_seconds := some 10 })) =
      some { data_origin := "inrix", tmc_code := "112+04382",
             measurement_tstamp := "2019-01-01 00:00:00", speed := some 50,
             travel_time_seconds := some 10 } :=
  read_batch_dedup_and_speed c9_chunk_sets _ (by decide)

/-- C4 counterexample: a Saturday row in the overnight slot is included in
the overnight cohort of `filter_group_summarize_fhwa` even though its
day_of_week is not a weekday, because step 4 uses an all-true
day-of-week mask. -/
theorem overnight_cohort_weekend_cex :
    weekend_overnight_row ∈ summarized_data_overnight [weekend_overnight_row] ∧
    weekend_overnight_row.day_of_week ∉ [0, 1, 2, 3, 4] := by
  decide

/-- C4 (amended): in `filter_group_summarize_fhwa`, the am_peak, midday and
pm_peak cohorts include a row only if its day_of_week is a weekday; the
overnight cohort includes a row exactly when its time_slot is `overnight`
and its date_window is `all_days`, with no day-of-week restriction; the
weekends cohort includes a row only if its day_of_week is Saturday or
Sunday and its time_slot is one of the three daytime slots; and every row
is included in the alltime cohort. -/
theorem fhwa_cohort_membership (main_data : List MainRow) (r : MainRow) :
    (r ∈ summarized_data_ampeak main_data → r.day_of_week ∈ [0, 1, 2, 3, 4]) ∧
    (r ∈ summarized_data_midday main_data → r.day_of_week ∈ [0, 1, 2, 3, 4]) ∧
    (r ∈ summarized_data_pmpeak main_data → r.day_of_week ∈ [0, 1, 2, 3, 4]) ∧
    (r ∈ summarized_data_overnight main_data ↔
      r ∈ main_data ∧ r.time_slot = "overnight" ∧ r.date_window = "all_days") ∧
    (r ∈ summarized_data_weekends main_data →
      r.day_of_week ∈ [5, 6] ∧ r.time_slot ∈ ["am_peak", "midday", "pm_peak"]) ∧
    (r ∈ main_data → r ∈ summarized_data_alltime main_data) := by
  refine ⟨?_, ?_, ?_, ?_, ?_, ?_⟩
  · intro h
    have := (List.mem_filter.mp h).2
    simp [summary_filter_am_peak] at this
    simp [this]
  · intro h
    have := (List.mem_filter.mp h).2
    simp [summary_filter_midday] at this
    simp [this]
  · intro h
    have := (List.mem_filter.mp h).2
    simp [summary_filter_pm_peak] at this
    simp [this]
  · simp [summarized_data_overnight, List.mem_filter, summary_filter_overnight]
  · intro h
    have := (List.mem_filter.mp h).2
    simp [summary_filter_weekends] at this
    simp [this]
  · intro h
    exact List.mem_filter.mpr ⟨h, rfl⟩

/-- Witness for the amended C4 at the Saturday overnight row. -/
theorem fhwa_cohort_membership_witness :
    (weekend_overnight_row ∈ summarized_data_ampeak [weekend_overnight_row] →
      weekend_overnight_row.day_of_week ∈ [0, 1, 2, 3, 4]) ∧
    (weekend_overnight_row ∈ summarized_data_midday [weekend_overnight_row] →
      weekend_overnight_row.day_of_week ∈ [0, 1, 2, 3, 4]) ∧
    (weekend_overnight_row ∈ summarized_data_pmpeak [weekend_overnight_row] →
      weekend_overnight_row.day_of_week ∈ [0, 1, 2, 3, 4]) ∧
    (weekend_overnight_row ∈ summarized_data_overnight [weekend_overnight_row] ↔
      weekend_overnight_row ∈ [weekend_overnight_row] ∧
      weekend_overnight_row.time_slot = "overnight" ∧
      weekend_overnight_row.date_window = "all_days") ∧
    (weekend_overnight_row ∈ summarized_data_weekends [weekend_overnight_row] →
      weekend_overnight_row.day_of_week ∈ [5, 6] ∧
      weekend_overnight_row.time_slot ∈ ["am_peak", "midday", "pm_peak"]) ∧
    (weekend_overnight_row ∈ [weekend_overnight_row] →
      weekend_overnight_row ∈ summarized_data_alltime [weekend_overnight_row]) :=
  fhwa_cohort_membership [weekend_overnight_row] weekend_overnight_row

theorem am_peak_filter_eq (t : Nat) :
    am_peak.get_filter t = (decide (360 ≤ t) && decide (t < 600)) := by
  rw [Bool.eq_iff_iff]
  simp [time_slot.get_filter, am_peak]
  omega

theorem afternoon_offpeak_filter_eq (t : Nat) :
    afternoon_offpeak.get_filter t = (decide (600 ≤ t) && decide (t < 960)) := by
  rw [Bool.eq_iff_iff]
  simp [time_slot.get_filter, afternoon_offpeak]
  omega

theorem pm_peak_filter_eq (t : Nat) :
    pm_peak.get_filter t = (decide (960 ≤ t) && decide (t < 1200)) := by
  rw [Bool.eq_iff_iff]
  simp [time_slot.get_filter, pm_peak]
  omega

theorem night_filter_eq (t : Nat) :
    night.get_filter t = (decide (t < 360) || decide (1200 ≤ t)) := by
  rw [Bool.eq_iff_iff]
  simp [time_slot.get_filter, night]
  omega

/-- C5: the four time-slot filters built by `define_standard_fhwa_timeslots`
partition the day.  For every time-of-day value `t` the filters are
equivalent to the half-open windows 06:00–10:00 (`am_peak`), 10:00–16:00
(`midday`), 16:00–20:00 (`pm_peak`) and the complement of 06:00–20:00
(`overnight`); exactly one filter matches; and the matching slot determines
the `time_slot` label the pipeline assigns. -/
theorem fhwa_timeslots_partition (t : Nat) (ht : t < 1440) :
    (am_peak.get_filter t = true ↔ 360 ≤ t ∧ t < 600) ∧
    (afternoon_offpeak.get_filter t = true ↔ 600 ≤ t ∧ t < 960) ∧
    (pm_peak.get_filter t = true ↔ 960 ≤ t ∧ t < 1200) ∧
    (night.get_filter t = true ↔ t < 360 ∨ 1200 ≤ t) ∧
    List.countP (fun ts => ts.get_filter t) all_time_slots = 1 ∧
    (∀ ts ∈ all_time_slots, ts.get_filter t = true →
      define_standard_fhwa_timeslots t = some ts.slot_name) := by
  refine ⟨?_, ?_, ?_, ?_, ?_, ?_⟩
  · rw [am_peak_filter_eq]; simp
  · rw [afternoon_offpeak_filter_eq]; simp
  · rw [pm_peak_filter_eq]; simp
  · rw [night_filter_eq]; simp
  · simp only [all_time_slots, List.countP_cons, List.countP_nil,
      am_peak_filter_eq, afternoon_offpeak_filter_eq, pm_peak_filter_eq,
      night_filter_eq]
    split_ifs <;> simp_all <;> omega
  · intro ts hts hfil
    fin_cases hts <;>
      simp only [define_standard_fhwa_timeslots, assign_time_slot,
        all_time_slots, List.foldl_cons, List.foldl_nil,
        am_peak_filter_eq, afternoon_offpeak_filter_eq, pm_peak_filter_eq,
        night_filter_eq] at hfil ⊢ <;>
      simp at hfil <;>
      split_ifs <;> simp_all <;> omega

/-- Witness for C5 at `t = 420` (07:00): the `am_peak` window. -/
theorem fhwa_timeslots_partition_witness :
    (am_peak.get_filter 420 = true ↔ 360 ≤ 420 ∧ 420 < 600) ∧
    (afternoon_offpeak.get_filter 420 = true ↔ 600 ≤ 420 ∧ 420 < 960) ∧
    (pm_peak.get_filter 420 = true ↔ 960 ≤ 420 ∧ 420 < 1200) ∧
    (night.get_filter 420 = true ↔ 420 < 360 ∨ 1200 ≤ 420) ∧
    List.countP (fun ts => ts.get_filter 420) all_time_slots = 1 ∧
    (∀ ts ∈ all_time_slots, ts.get_filter 420 = true →
      define_standard_fhwa_timeslots 420 = some ts.slot_name) :=
  fhwa_timeslots_partition 420 (by decide)

/-- C8 counterexample: starting from page size 2, a failed query keeps the
page size at 2 (`int(2/2)+1 = 2`), so the sequence of page sizes across
successive retries does not strictly decrease. -/
theorem block_size_not_strictly_decreasing :
    block_size_seq 2 1 = 2 ∧ ¬ block_size_seq 2 1 < block_size_seq 2 0 := by
  decide

/-- C8 (amended): on an error response `query_arcgis_feature_server` retries
with the page size updated to `size/2 + 1` (floor division).  This strictly
decreases the page size while it is at least 3; page sizes 2 and 1 are fixed
points, so from those sizes successive retries reuse the same page size; the
page size always stays at least 1. -/
theorem block_size_seq_decreases (n : Nat) (h : 3 ≤ n) :
    next_block_size n < n ∧ next_block_size 2 = 2 ∧ next_block_size 1 = 1 ∧
    1 ≤ next_block_size n := by
  refine ⟨?_, rfl, rfl, ?_⟩ <;> simp [next_block_size] <;> omega

/-- Witness for the amended C8 at `n = 10`: a failed query at page size 10
retries at page size 6. -/
theorem block_size_seq_decreases_witness :
    next_block_size 10 < 10 ∧ next_block_size 2 = 2 ∧ next_block_size 1 = 1 ∧
    1 ≤ next_block_size 10 :=
  block_size_seq_decreases 10 (by decide)

theorem mem_of_getLast?_eq_some {α : Type} {l : List α} {a : α}
    (h : l.getLast? = some a) : a ∈ l := by
  induction l with
  | nil => simp at h
  | cons x xs ih =>
    cases xs with
    | nil =>
      simp [List.getLast?] at h
      simp [h]
    | cons y ys =>
      rw [List.getLast?_cons_cons] at h
      exact List.mem_cons_of_mem x (ih h)

theorem getLast?_ge_of_pairwise (f : TmcRow → Nat) :
    ∀ (l : List TmcRow), l.Pairwise (fun a b => f a ≤ f b) →
    ∀ a, l.getLast? = some a → ∀ x ∈ l, f x ≤ f a := by
  intro l
  induction l with
  | nil => intro _ a _ x hx; simp at hx
  | cons b bs ih =>
    intro hp a ha x hx
    cases bs with
    | nil =>
      simp [List.getLast?] at ha
      simp at hx
      rw [hx, ha]
    | cons c cs =>
      rw [List.getLast?_cons_cons] at ha
      rcases List.mem_cons.mp hx with rfl | hx2
      · exact (List.pairwise_cons.mp hp).1 a (mem_of_getLast?_eq_some ha)
      · exact ih (List.pairwise_cons.mp hp).2 a ha x hx2

theorem filterMap_keys_nodup {κ α : Type} [DecidableEq κ]
    (g : κ → Option α) (code : α → κ)
    (hg : ∀ t a, g t = some a → code a = t) :
    ∀ (keys : List κ), keys.Nodup → ((keys.filterMap g).map code).Nodup := by
  intro keys
  induction keys with
  | nil => intro _; simp
  | cons t ts ih =>
    intro hn
    rw [List.filterMap_cons]
    cases hgt : g t with
    | none => exact ih (List.nodup_cons.mp hn).2
    | some a =>
      rw [List.map_cons]
      refine List.nodup_cons.mpr ⟨?_, ih (List.nodup_cons.mp hn).2⟩
      intro hmem
      obtain ⟨b, hb, hcb⟩ := List.mem_map.mp hmem
      obtain ⟨u, hu, hgu⟩ := List.mem_filterMap.mp hb
      have h1 : code b = u := hg u b hgu
      have h2 : code a = t := hg t a hgt
      have h3 : t ∈ ts := by rw [← h2, ← hcb, h1]; exact hu
      exact (List.nodup_cons.mp hn).1 h3

theorem dropDupFirst_id_nodup {κ : Type} [DecidableEq κ] (l : List κ) :
    (drop_duplicates_first id l).Nodup := by
  have := (dropDupAux_keys_nodup (id : κ → κ) l []).1
  simpa [drop_duplicates_first] using this

theorem tmc_group_last_spec (tmc_data : List TmcRow) (t : String) (r : TmcRow)
    (hgt : tmc_group_last tmc_data t = some r) :
    r.tmc_code = t ∧ r ∈ tmc_data ∧
    ∀ s ∈ tmc_data.filter (fun x => decide (x.tmc_code = t)),
      s.active_end_date ≤ r.active_end_date := by
  unfold tmc_group_last at hgt
  have hperm := List.perm_insertionSort tmc_date_le
    (tmc_data.filter (fun x => decide (x.tmc_code = t)))
  have hsorted := List.sorted_insertionSort tmc_date_le
    (tmc_data.filter (fun x => decide (x.tmc_code = t)))
  have hmem := mem_of_getLast?_eq_some hgt
  have hmemf : r ∈ tmc_data.filter (fun x => decide (x.tmc_code = t)) :=
    hperm.mem_iff.mp hmem
  have hcode : r.tmc_code = t := by simpa using (List.mem_filter.mp hmemf).2
  refine ⟨hcode, (List.mem_filter.mp hmemf).1, ?_⟩
  intro s hs
  have hs2 : s ∈ List.insertionSort tmc_date_le
      (tmc_data.filter (fun x => decide (x.tmc_code = t))) :=
    hperm.mem_iff.mpr hs
  exact getLast?_ge_of_pairwise (fun x => x.active_end_date) _
    (hsorted.imp (fun h => h)) r hgt s hs2

/-- C6: every row of the TMC metadata returned by
`read_csv_get_specific_road_segments` matches the road-name filter; the
returned table has at most one row per tmc_code; and each returned row is
one of the input rows for its tmc_code (after the origin/road fill) whose
active_end_date is maximal, so when the dates are distinct it is the row
with the latest active_end_date whose values are kept. -/
theorem tmc_metadata_dedup (data_origin : String) (tmc_csv : List TmcRow)
    (road_str : String) (r : TmcRow)
    (h : r ∈ read_csv_get_specific_road_segments data_origin tmc_csv road_str) :
    road_contains r road_str = true ∧
    ((read_csv_get_specific_road_segments data_origin tmc_csv road_str).map
      (fun x => x.tmc_code)).Nodup ∧
    r ∈ tmc_candidates data_origin tmc_csv road_str r.tmc_code ∧
    ∀ s ∈ tmc_candidates data_origin tmc_csv road_str r.tmc_code,
      s.active_end_date ≤ r.active_end_date := by
  simp only [read_csv_get_specific_road_segments] at h ⊢
  simp only [tmc_candidates]
  obtain ⟨t, _, hgt⟩ := List.mem_filterMap.mp h
  obtain ⟨hcode, hmem, hmax⟩ := tmc_group_last_spec _ _ _ hgt
  subst hcode
  refine ⟨(List.mem_filter.mp hmem).2, ?_, ?_, ?_⟩
  · refine filterMap_keys_nodup _ (fun x : TmcRow => x.tmc_code) ?_ _
      (dropDupFirst_id_nodup _)
    intro u a hga
    exact (tmc_group_last_spec _ _ _ hga).1
  · exact List.mem_filter.mpr ⟨hmem, by simp⟩
  · exact hmax

/-- Witness for C6: with two rows for tmc_code `112+04382`, the row with
the later active_end_date (20) is the one kept. -/
theorem tmc_metadata_dedup_witness :
    road_contains
      { tmc_code := "112+04382", road := some "I-35", active_end_date := 20,
        data_origin := "inrix", start_latitude := 0, start_longitude := 0,
        end_latitude := 2, end_longitude := 2 } "35" = true ∧
    ((read_csv_get_specific_road_segments "inrix" c6_tmc_csv "35").map
      (fun x => x.tmc_code)).Nodup ∧
    ({ tmc_code := "112+04382", road := some "I-35", active_end_date := 20,
       data_origin := "inrix", start_latitude := 0, start_longitude := 0,
       end_latitude := 2, end_longitude := 2 } : TmcRow) ∈
      tmc_candidates "inrix" c6_tmc_csv "35" "112+04382" ∧
    ∀ s ∈ tmc_candidates "inrix" c6_tmc_csv "35" "112+04382",
      s.active_end_date ≤ 20 :=
  tmc_metadata_dedup "inrix" c6_tmc_csv "35"
    { tmc_code := "112+04382", road := some "I-35", active_end_date := 20,
      data_origin := "inrix", start_latitude := 0, start_longitude := 0,
      end_latitude := 2, end_longitude := 2 } (by decide)

theorem qmax_mem : ∀ (l : List ℚ), l ≠ [] → qmax l ∈ l := by
  intro l
  induction l with
  | nil => intro h; exact absurd rfl h
  | cons x xs ih =>
    intro _
    cases xs with
    | nil => simp [qmax]
    | cons y ys =>
      simp only [qmax]
      rcases max_choice x (qmax (y :: ys)) with h | h
      · rw [h]; exact List.mem_cons_self _ _
      · rw [h]; exact List.mem_cons_of_mem x (ih (by simp))

theorem le_qmax : ∀ (l : List ℚ) (x : ℚ), x ∈ l → x ≤ qmax l := by
  intro l
  induction l with
  | nil => intro x hx; simp at hx
  | cons a xs ih =>
    intro x hx
    cases xs with
    | nil =>
      simp at hx
      simp [qmax, hx]
    | cons y ys =>
      simp only [qmax]
      rcases List.mem_cons.mp hx with rfl | h2
      · exact le_max_left _ _
      · exact le_trans (ih x h2) (le_max_right _ _)

theorem nodup_types_of_key_group (t d : String) :
    ∀ (l : List SummaryRow),
    (l.map (fun r => (r.tmc_code, r.data_origin, r.summary_type))).Nodup →
    (∀ r ∈ l, r.tmc_code = t ∧ r.data_origin = d) →
    (l.map (fun r => r.summary_type)).Nodup := by
  intro l
  induction l with
  | nil => intro _ _; simp
  | cons x xs ih =>
    intro h hall
    rw [List.map_cons] at h ⊢
    refine List.nodup_cons.mpr ⟨?_, ih (List.nodup_cons.mp h).2
      (fun r hr => hall r (List.mem_cons_of_mem _ hr))⟩
    intro hmem
    obtain ⟨y, hy, hty⟩ := List.mem_map.mp hmem
    have hx := hall x (List.mem_cons_self _ _)
    have hyk := hall y (List.mem_cons_of_mem _ hy)
    have hmem2 := List.mem_map_of_mem
      (fun r : SummaryRow => (r.tmc_code, r.data_origin, r.summary_type)) hy
    have hyx : (y.tmc_code, y.data_origin, y.summary_type)
        = (x.tmc_code, x.data_origin, x.summary_type) := by
      rw [hyk.1, hyk.2, hty, hx.1, hx.2]
    refine (List.nodup_cons.mp h).1 ?_
    rw [← hyx]
    exact hmem2

theorem mem_rs_selected (cohorts : List String) (origin_ok : String → Bool)
    (rows : List SummaryRow) (r : SummaryRow) :
    r ∈ rs_selected cohorts origin_ok rows ↔
      r ∈ rows ∧ r.summary_type ∈ cohorts ∧ origin_ok r.data_origin = true := by
  simp [rs_selected, List.mem_filter, Bool.and_eq_true, decide_eq_true_eq, and_assoc]

theorem mem_rs_group (cohorts : List String) (origin_ok : String → Bool)
    (rows : List SummaryRow) (k : String × String) (r : SummaryRow) :
    r ∈ rs_group cohorts origin_ok rows k ↔
      r ∈ rows ∧ r.summary_type ∈ cohorts ∧ origin_ok r.data_origin = true ∧
      r.tmc_code = k.1 ∧ r.data_origin = k.2 := by
  simp [rs_group, mem_rs_selected, List.mem_filter, Bool.and_eq_true,
    decide_eq_true_eq, and_assoc]

theorem mem_reliability_scoring (cohorts : List String)
    (origin_ok : String → Bool) (ratio_num : SummaryRow → ℚ) (rel_type : String)
    (required : Nat) (rows : List SummaryRow) (s : ScoredRow) :
    s ∈ reliability_scoring cohorts origin_ok ratio_num rel_type required rows ↔
      ∃ k, k ∈ drop_duplicates_first id
          ((rs_selected cohorts origin_ok rows).map
            (fun r => (r.tmc_code, r.data_origin))) ∧
        s = rs_score_key cohorts origin_ok ratio_num rel_type rows k ∧
        s.SummaryCount = required := by
  simp only [reliability_scoring, List.mem_filter, List.mem_map,
    decide_eq_true_eq]
  constructor
  · rintro ⟨⟨k, hk, rfl⟩, hcount⟩
    exact ⟨k, hk, rfl, hcount⟩
  · rintro ⟨k, hk, rfl, hcount⟩
    exact ⟨⟨k, hk, rfl⟩, hcount⟩

theorem rs_keys_iff (cohorts : List String) (origin_ok : String → Bool)
    (rows : List SummaryRow) (k : String × String) :
    k ∈ drop_duplicates_first id
        ((rs_selected cohorts origin_ok rows).map
          (fun r => (r.tmc_code, r.data_origin))) ↔
      ∃ r ∈ rs_selected cohorts origin_ok rows,
        r.tmc_code = k.1 ∧ r.data_origin = k.2 := by
  constructor
  · intro hk
    have hmapped := mem_of_mem_dropDupAux id _ [] k hk
    obtain ⟨r, hr, hpr⟩ := List.mem_map.mp hmapped
    refine ⟨r, hr, ?_, ?_⟩
    · rw [← hpr]
    · rw [← hpr]
  · rintro ⟨r, hr, h1, h2⟩
    have hmem : (r.tmc_code, r.data_origin) ∈
        (rs_selected cohorts origin_ok rows).map
          (fun x => (x.tmc_code, x.data_origin)) :=
      List.mem_map_of_mem _ hr
    obtain ⟨k', hk', hid⟩ := key_mem_dropDupAux id _ [] _ hmem (by simp)
    simp only [id] at hid
    rw [hid] at hk'
    have hpk : (r.tmc_code, r.data_origin) = k := Prod.ext h1 h2
    rwa [hpk] at hk'

theorem rs_group_count (cohorts : List String) (hcoh : cohorts.Nodup)
    (origin_ok : String → Bool) (rows : List SummaryRow)
    (hwf : summaries_wellformed rows) (k : String × String) :
    (rs_group cohorts origin_ok rows k).length = cohorts.length ↔
      ∀ c ∈ cohorts, ∃ r ∈ rs_group cohorts origin_ok rows k,
        r.summary_type = c := by
  have hsub : List.Sublist (rs_group cohorts origin_ok rows k) rows := by
    unfold rs_group rs_selected
    exact (List.filter_sublist _).trans (List.filter_sublist _)
  have htrip : ((rs_group cohorts origin_ok rows k).map
      (fun r => (r.tmc_code, r.data_origin, r.summary_type))).Nodup :=
    hwf.sublist (hsub.map _)
  have htypes : ((rs_group cohorts origin_ok rows k).map
      (fun r => r.summary_type)).Nodup :=
    nodup_types_of_key_group k.1 k.2 _ htrip
      (fun r hr => ⟨((mem_rs_group _ _ _ _ _).mp hr).2.2.2.1,
        ((mem_rs_group _ _ _ _ _).mp hr).2.2.2.2⟩)
  have hsubset : ((rs_group cohorts origin_ok rows k).map
      (fun r => r.summary_type)) ⊆ cohorts := by
    intro c hc
    obtain ⟨r, hr, hrc⟩ := List.mem_map.mp hc
    exact hrc ▸ ((mem_rs_group _ _ _ _ _).mp hr).2.1
  have hsp : List.Subperm ((rs_group cohorts origin_ok rows k).map
      (fun r => r.summary_type)) cohorts :=
    List.subperm_of_subset htypes hsubset
  constructor
  · intro hlen
    have hlen2 : cohorts.length ≤ ((rs_group cohorts origin_ok rows k).map
        (fun r => r.summary_type)).length := by
      rw [List.length_map, hlen]
    have hperm := hsp.perm_of_length_le hlen2
    intro c hc
    have : c ∈ (rs_group cohorts origin_ok rows k).map
        (fun r => r.summary_type) := hperm.symm.mem_iff.mp hc
    obtain ⟨r, hr, hrc⟩ := List.mem_map.mp this
    exact ⟨r, hr, hrc⟩
  · intro hcov
    have hcsub : cohorts ⊆ (rs_group cohorts origin_ok rows k).map
        (fun r => r.summary_type) := by
      intro c hc
      obtain ⟨r, hr, hrc⟩ := hcov c hc
      exact hrc ▸ List.mem_map_of_mem _ hr
    have h1 : cohorts.length ≤ ((rs_group cohorts origin_ok rows k).map
        (fun r => r.summary_type)).length :=
      (List.subperm_of_subset hcoh hcsub).length_le
    have h2 : ((rs_group cohorts origin_ok rows k).map
        (fun r => r.summary_type)).length ≤ cohorts.length := hsp.length_le
    have := Nat.le_antisymm h2 h1
    rwa [List.length_map] at this

theorem rs_score_key_fields (cohorts : List String) (origin_ok : String → Bool)
    (ratio_num : SummaryRow → ℚ) (rel_type : String) (rows : List SummaryRow)
    (k : String × String) :
    (rs_score_key cohorts origin_ok ratio_num rel_type rows k).tmc_code = k.1 ∧
    (rs_score_key cohorts origin_ok ratio_num rel_type rows k).data_origin = k.2 ∧
    (rs_score_key cohorts origin_ok ratio_num rel_type rows k).Reliability_Type
      = rel_type ∧
    (rs_score_key cohorts origin_ok ratio_num rel_type rows k).SummaryCount
      = (rs_group cohorts origin_ok rows k).length ∧
    (rs_score_key cohorts origin_ok ratio_num rel_type rows k).Reliability
      = qmax ((rs_group cohorts origin_ok rows k).map
          (fun r => ratio_num r / r.ttime_50p)) ∧
    (rs_score_key cohorts origin_ok ratio_num rel_type rows k).Reliable
      = decide ((rs_score_key cohorts origin_ok ratio_num rel_type rows k).Reliability
          < 3 / 2) := by
  refine ⟨rfl, rfl, rfl, ?_, rfl, rfl⟩
  simp [rs_score_key, List.length_map]

theorem reliability_scoring_pairs (cohorts : List String) (hcoh : cohorts.Nodup)
    (hne : cohorts ≠ []) (origin_ok : String → Bool) (ratio_num : SummaryRow → ℚ)
    (rel_type : String) (rows : List SummaryRow)
    (hwf : summaries_wellformed rows) (t d : String) :
    (∃ s ∈ reliability_scoring cohorts origin_ok ratio_num rel_type
        cohorts.length rows, s.tmc_code = t ∧ s.data_origin = d) ↔
      origin_ok d = true ∧ ∀ c ∈ cohorts, ∃ r ∈ rows,
        r.tmc_code = t ∧ r.data_origin = d ∧ r.summary_type = c := by
  constructor
  · rintro ⟨s, hs, hst, hsd⟩
    obtain ⟨k, hk, rfl, hcount⟩ := (mem_reliability_scoring _ _ _ _ _ _ _).mp hs
    obtain ⟨f1, f2, _, f4, _, _⟩ := rs_score_key_fields cohorts origin_ok
      ratio_num rel_type rows k
    rw [f1] at hst
    rw [f2] at hsd
    subst hst
    subst hsd
    rw [f4] at hcount
    obtain ⟨r0, hr0, h01, h02⟩ := (rs_keys_iff _ _ _ _).mp hk
    have horig : origin_ok k.2 = true := by
      rw [← h02]
      exact ((mem_rs_selected _ _ _ _).mp hr0).2.2
    refine ⟨horig, ?_⟩
    intro c hc
    obtain ⟨r, hr, hrc⟩ := (rs_group_count cohorts hcoh origin_ok rows hwf k).mp
      hcount c hc
    obtain ⟨hrw, _, _, hrt, hrd⟩ := (mem_rs_group _ _ _ _ _).mp hr
    exact ⟨r, hrw, hrt, hrd, hrc⟩
  · rintro ⟨horig, hcov⟩
    obtain ⟨c0, hc0⟩ := List.exists_mem_of_ne_nil cohorts hne
    obtain ⟨r0, hr0, hr0t, hr0d, hr0c⟩ := hcov c0 hc0
    have hr0sel : r0 ∈ rs_selected cohorts origin_ok rows :=
      (mem_rs_selected _ _ _ _).mpr ⟨hr0, hr0c ▸ hc0, by rw [hr0d]; exact horig⟩
    have hk : (t, d) ∈ drop_duplicates_first id
        ((rs_selected cohorts origin_ok rows).map
          (fun r => (r.tmc_code, r.data_origin))) :=
      (rs_keys_iff _ _ _ _).mpr ⟨r0, hr0sel, hr0t, hr0d⟩
    have hcnt : (rs_group cohorts origin_ok rows (t, d)).length
        = cohorts.length := by
      refine (rs_group_count cohorts hcoh origin_ok rows hwf (t, d)).mpr ?_
      intro c hc
      obtain ⟨r, hr, h1, h2, h3⟩ := hcov c hc
      refine ⟨r, (mem_rs_group _ _ _ _ _).mpr
        ⟨hr, h3 ▸ hc, by rw [h2]; exact horig, h1, h2⟩, h3⟩
    refine ⟨rs_score_key cohorts origin_ok ratio_num rel_type rows (t, d),
      (mem_reliability_scoring _ _ _ _ _ _ _).mpr ⟨(t, d), hk, rfl, ?_⟩, rfl, rfl⟩
    rw [(rs_score_key_fields cohorts origin_ok ratio_num rel_type
      rows (t, d)).2.2.2.1]
    exact hcnt

theorem reliability_scoring_values (cohorts : List String)
    (hcoh : cohorts.Nodup) (hne : cohorts ≠ []) (origin_ok : String → Bool)
    (ratio_num : SummaryRow → ℚ) (rel_type : String) (rows : List SummaryRow)
    (s : ScoredRow)
    (hs : s ∈ reliability_scoring cohorts origin_ok ratio_num rel_type
      cohorts.length rows) :
    (∀ r ∈ rows, r.tmc_code = s.tmc_code → r.data_origin = s.data_origin →
      r.summary_type ∈ cohorts → ratio_num r / r.ttime_50p ≤ s.Reliability) ∧
    (∃ r ∈ rows, r.tmc_code = s.tmc_code ∧ r.data_origin = s.data_origin ∧
      r.summary_type ∈ cohorts ∧ s.Reliability = ratio_num r / r.ttime_50p) ∧
    (s.Reliable = true ↔ s.Reliability < 3 / 2) ∧
    s.Reliability_Type = rel_type := by
  obtain ⟨k, hk, rfl, hcount⟩ := (mem_reliability_scoring _ _ _ _ _ _ _).mp hs
  obtain ⟨f1, f2, f3, f4, f5, f6⟩ := rs_score_key_fields cohorts origin_ok
    ratio_num rel_type rows k
  have horig : origin_ok k.2 = true := by
    obtain ⟨r0, hr0, _, h02⟩ := (rs_keys_iff _ _ _ _).mp hk
    rw [← h02]
    exact ((mem_rs_selected _ _ _ _).mp hr0).2.2
  refine ⟨?_, ?_, ?_, f3⟩
  · intro r hr h1 h2 h3
    have hrg : r ∈ rs_group cohorts origin_ok rows k :=
      (mem_rs_group _ _ _ _ _).mpr
        ⟨hr, h3, by rw [h2, f2]; exact horig, by rw [h1, f1], by rw [h2, f2]⟩
    have : ratio_num r / r.ttime_50p ∈
        (rs_group cohorts origin_ok rows k).map
          (fun x => ratio_num x / x.ttime_50p) :=
      List.mem_map_of_mem _ hrg
    rw [f5]
    exact le_qmax _ _ this
  · have hnempty : rs_group cohorts origin_ok rows k ≠ [] := by
      intro hemp
      rw [f4, hemp] at hcount
      simp at hcount
      exact hne (List.length_eq_zero.mp hcount.symm)
    have hmapne : (rs_group cohorts origin_ok rows k).map
        (fun x => ratio_num x / x.ttime_50p) ≠ [] := by
      simpa using hnempty
    have := qmax_mem _ hmapne
    obtain ⟨r, hrg, hrq⟩ := List.mem_map.mp this
    obtain ⟨hrw, hrc, _, hrt, hrd⟩ := (mem_rs_group _ _ _ _ _).mp hrg
    exact ⟨r, hrw, by rw [hrt, f1], by rw [hrd, f2], hrc, by rw [f5, ← hrq]⟩
  · rw [f6]
    simp

/-- C2: `calculate_standard_reliabily_mixed_traffic` scores exactly the
(tmc_code, data_origin) pairs whose data_origin is `inrix` or
`npmrds_from_inrix_trucks_and_passveh` and that have a summary for each of
the four cohorts am_peak, midday, pm_peak, weekends; for each scored pair
the Reliability is the maximum over those four cohorts of
`ttime_80p / ttime_50p` (an upper bound that is attained), and `Reliable`
holds exactly when that maximum is below 1.5.  The well-formedness
hypothesis — at most one summary row per (tmc_code, data_origin,
summary_type) — is what `filter_group_summarize_fhwa` guarantees for
`all_summaries_concat`. -/
theorem mixed_traffic_reliability (all_summaries_concat : List SummaryRow)
    (main_tmc_data : List TmcRow)
    (hwf : summaries_wellformed all_summaries_concat) (t d : String) :
    ((∃ s ∈ calculate_standard_reliabily_mixed_traffic all_summaries_concat
        main_tmc_data, s.tmc_code = t ∧ s.data_origin = d) ↔
      d ∈ ["inrix", "npmrds_from_inrix_trucks_and_passveh"] ∧
        ∀ c ∈ ["am_peak", "midday", "pm_peak", "weekends"],
          ∃ r ∈ all_summaries_concat,
            r.tmc_code = t ∧ r.data_origin = d ∧ r.summary_type = c) ∧
    ∀ s ∈ calculate_standard_reliabily_mixed_traffic all_summaries_concat
        main_tmc_data,
      (∀ r ∈ all_summaries_concat, r.tmc_code = s.tmc_code →
        r.data_origin = s.data_origin →
        r.summary_type ∈ ["am_peak", "midday", "pm_peak", "weekends"] →
        r.ttime_80p / r.ttime_50p ≤ s.Reliability) ∧
      (∃ r ∈ all_summaries_concat, r.tmc_code = s.tmc_code ∧
        r.data_origin = s.data_origin ∧
        r.summary_type ∈ ["am_peak", "midday", "pm_peak", "weekends"] ∧
        s.Reliability = r.ttime_80p / r.ttime_50p) ∧
      (s.Reliable = true ↔ s.Reliability < 3 / 2) := by
  constructor
  · have := reliability_scoring_pairs
      ["am_peak", "midday", "pm_peak", "weekends"] (by decide) (by decide)
      (fun o => decide (o ∈ ["inrix", "npmrds_from_inrix_trucks_and_passveh"]))
      (fun r => r.ttime_80p) "Mixed_Traffic" all_summaries_concat hwf t d
    simpa [calculate_standard_reliabily_mixed_traffic] using this
  · intro s hs
    have hs2 : s ∈ reliability_scoring
        ["am_peak", "midday", "pm_peak", "weekends"]
        (fun o => decide (o ∈ ["inrix", "npmrds_from_inrix_trucks_and_passveh"]))
        (fun r => r.ttime_80p) "Mixed_Traffic"
        (List.length ["am_peak", "midday", "pm_peak", "weekends"])
        all_summaries_concat := hs
    have := reliability_scoring_values
      ["am_peak", "midday", "pm_peak", "weekends"] (by decide) (by decide)
      (fun o => decide (o ∈ ["inrix", "npmrds_from_inrix_trucks_and_passveh"]))
      (fun r => r.ttime_80p) "Mixed_Traffic" all_summaries_concat s hs2
    exact ⟨this.1, this.2.1, this.2.2.1⟩

/-- Witness for C2 at the complete pair of `c2_summaries`. -/
theorem mixed_traffic_reliability_witness :
    ((∃ s ∈ calculate_standard_reliabily_mixed_traffic c2_summaries [],
        s.tmc_code = "t1" ∧ s.data_origin = "inrix") ↔
      "inrix" ∈ ["inrix", "npmrds_from_inrix_trucks_and_passveh"] ∧
        ∀ c ∈ ["am_peak", "midday", "pm_peak", "weekends"],
          ∃ r ∈ c2_summaries,
            r.tmc_code = "t1" ∧ r.data_origin = "inrix" ∧ r.summary_type = c) ∧
    ∀ s ∈ calculate_standard_reliabily_mixed_traffic c2_summaries [],
      (∀ r ∈ c2_summaries, r.tmc_code = s.tmc_code →
        r.data_origin = s.data_origin →
        r.summary_type ∈ ["am_peak", "midday", "pm_peak", "weekends"] →
        r.ttime_80p / r.ttime_50p ≤ s.Reliability) ∧
      (∃ r ∈ c2_summaries, r.tmc_code = s.tmc_code ∧
        r.data_origin = s.data_origin ∧
        r.summary_type ∈ ["am_peak", "midday", "pm_peak", "weekends"] ∧
        s.Reliability = r.ttime_80p / r.ttime_50p) ∧
      (s.Reliable = true ↔ s.Reliability < 3 / 2) :=
  mixed_traffic_reliability c2_summaries [] (by decide) "t1" "inrix"

/-- C3: `calculate_standard_reliability_trucks` scores exactly the
(tmc_code, data_origin) pairs whose data_origin is
`npmrds_from_inrix_trucks` and that have a summary for each of the five
cohorts am_peak, midday, pm_peak, overnight, weekends; for each scored
pair the Reliability reported is the continuous maximum over those five
cohorts of `ttime_95p / ttime_50p` (an upper bound that is attained). -/
theorem truck_reliability (all_summaries_concat : List SummaryRow)
    (main_tmc_data : List TmcRow)
    (hwf : summaries_wellformed all_summaries_concat) (t d : String) :
    ((∃ s ∈ calculate_standard_reliability_trucks all_summaries_concat
        main_tmc_data, s.tmc_code = t ∧ s.data_origin = d) ↔
      d = "npmrds_from_inrix_trucks" ∧
        ∀ c ∈ ["am_peak", "midday", "pm_peak", "overnight", "weekends"],
          ∃ r ∈ all_summaries_concat,
            r.tmc_code = t ∧ r.data_origin = d ∧ r.summary_type = c) ∧
    ∀ s ∈ calculate_standard_reliability_trucks all_summaries_concat
        main_tmc_data,
      (∀ r ∈ all_summaries_concat, r.tmc_code = s.tmc_code →
        r.data_origin = s.data_origin →
        r.summary_type ∈ ["am_peak", "midday", "pm_peak", "overnight",
          "weekends"] →
        r.ttime_95p / r.ttime_50p ≤ s.Reliability) ∧
      (∃ r ∈ all_summaries_concat, r.tmc_code = s.tmc_code ∧
        r.data_origin = s.data_origin ∧
        r.summary_type ∈ ["am_peak", "midday", "pm_peak", "overnight",
          "weekends"] ∧
        s.Reliability = r.ttime_95p / r.ttime_50p) := by
  constructor
  · have := reliability_scoring_pairs
      ["am_peak", "midday", "pm_peak", "overnight", "weekends"]
      (by decide) (by decide)
      (fun o => decide (o = "npmrds_from_inrix_trucks"))
      (fun r => r.ttime_95p) "Truck_Traffic" all_summaries_concat hwf t d
    simpa [calculate_standard_reliability_trucks] using this
  · intro s hs
    have hs2 : s ∈ reliability_scoring
        ["am_peak", "midday", "pm_peak", "overnight", "weekends"]
        (fun o => decide (o = "npmrds_from_inrix_trucks"))
        (fun r => r.ttime_95p) "Truck_Traffic"
        (List.length ["am_peak", "midday", "pm_peak", "overnight", "weekends"])
        all_summaries_concat := hs
    have := reliability_scoring_values
      ["am_peak", "midday", "pm_peak", "overnight", "weekends"]
      (by decide) (by decide)
      (fun o => decide (o = "npmrds_from_inrix_trucks"))
      (fun r => r.ttime_95p) "Truck_Traffic" all_summaries_concat s hs2
    exact ⟨this.1, this.2.1⟩

/-- Witness for C3 at the complete pair of `c3_summaries`. -/
theorem truck_reliability_witness :
    ((∃ s ∈ calculate_standard_reliability_trucks c3_summaries [],
        s.tmc_code = "t1" ∧ s.data_origin = "npmrds_from_inrix_trucks") ↔
      "npmrds_from_inrix_trucks" = "npmrds_from_inrix_trucks" ∧
        ∀ c ∈ ["am_peak", "midday", "pm_peak", "overnight", "weekends"],
          ∃ r ∈ c3_summaries, r.tmc_code = "t1" ∧
            r.data_origin = "npmrds_from_inrix_trucks" ∧
            r.summary_type = c) ∧
    ∀ s ∈ calculate_standard_reliability_trucks c3_summaries [],
      (∀ r ∈ c3_summaries, r.tmc_code = s.tmc_code →
        r.data_origin = s.data_origin →
        r.summary_type ∈ ["am_peak", "midday", "pm_peak", "overnight",
          "weekends"] →
        r.ttime_95p / r.ttime_50p ≤ s.Reliability) ∧
      (∃ r ∈ c3_summaries, r.tmc_code = s.tmc_code ∧
        r.data_origin = s.data_origin ∧
        r.summary_type ∈ ["am_peak", "midday", "pm_peak", "overnight",
          "weekends"] ∧
        s.Reliability = r.ttime_95p / r.ttime_50p) :=
  truck_reliability c3_summaries [] (by decide) "t1" "npmrds_from_inrix_trucks"

theorem reliability_branch_covers (scored : List ScoredRow)
    (main_data : List MainRow) (part : List RelRow)
    (hok : reliability_branch scored main_data = Except.ok part)
    (t : String) (hmem : ∃ m ∈ main_data, m.tmc_code = t) :
    ∃ row ∈ part, row.tmc_code = t ∧
      ((∀ s ∈ scored, s.tmc_code ≠ t) →
        row.RawDataRows = none ∧ row.SummaryCount = none ∧
        row.Reliability = none ∧ row.Reliable = none) := by
  unfold reliability_branch at hok
  cases hh : scored.head? with
  | none => rw [hh] at hok; simp at hok
  | some s0 =>
    rw [hh] at hok
    simp only [Except.ok.injEq] at hok
    subst hok
    by_cases hsc : ∃ s ∈ scored, s.tmc_code = t
    · obtain ⟨s, hs, hst⟩ := hsc
      refine ⟨scored_to_rel s,
        List.mem_append_left _ (List.mem_map_of_mem _ hs), hst, ?_⟩
      intro hall
      exact absurd hst (hall s hs)
    · push_neg at hsc
      obtain ⟨m, hm, hmt⟩ := hmem
      have hmap : t ∈ main_data.map (fun r => r.tmc_code) :=
        hmt ▸ List.mem_map_of_mem _ hm
      obtain ⟨t', ht', hid⟩ := key_mem_dropDupAux id _ [] t hmap (by simp)
      simp only [id] at hid
      have hdd : t ∈ drop_duplicates_first id
          (main_data.map (fun r => r.tmc_code)) := by
        unfold drop_duplicates_first
        rw [← hid]
        exact ht'
      have hnotin : t ∉ scored.map (fun s => s.tmc_code) := by
        intro hcon
        obtain ⟨s, hs, hst⟩ := List.mem_map.mp hcon
        exact hsc s hs hst
      have hmiss : t ∈ find_missing_tmc_codes main_data scored := by
        unfold find_missing_tmc_codes
        exact List.mem_filter.mpr ⟨hdd, by simpa using hnotin⟩
      exact ⟨missing_rel_row t s0.data_origin,
        List.mem_append_right _ (List.mem_map_of_mem _ hmiss),
        rfl, fun _ => ⟨rfl, rfl, rfl, rfl⟩⟩

/-- C1: whenever `calculate_standard_reliabilities` returns a table, every
tmc_code occurring in `main_data` occurs in that table; and for each
enabled traffic class, a main_data tmc_code that the class's scorer
dropped is re-added as a row whose metric columns (RawDataRows,
SummaryCount, Reliability, Reliable) are all null.  No segment of the
input is absent from the output. -/
theorem reliabilities_no_segment_lost (all_summaries_concat : List SummaryRow)
    (main_data : List MainRow) (main_tmc_data : List TmcRow)
    (calc_mixed_traf_rel calc_truck_rel : Bool) (out : List RelRow)
    (hok : calculate_standard_reliabilities all_summaries_concat main_data
      main_tmc_data calc_mixed_traf_rel calc_truck_rel = Except.ok out) :
    (∀ t, (∃ m ∈ main_data, m.tmc_code = t) → ∃ row ∈ out, row.tmc_code = t) ∧
    (calc_mixed_traf_rel = true → ∀ t, (∃ m ∈ main_data, m.tmc_code = t) →
      (∀ s ∈ calculate_standard_reliabily_mixed_traffic all_summaries_concat
        main_tmc_data, s.tmc_code ≠ t) →
      ∃ row ∈ out, row.tmc_code = t ∧ row.RawDataRows = none ∧
        row.SummaryCount = none ∧ row.Reliability = none ∧
        row.Reliable = none) ∧
    (calc_truck_rel = true → ∀ t, (∃ m ∈ main_data, m.tmc_code = t) →
      (∀ s ∈ calculate_standard_reliability_trucks all_summaries_concat
        main_tmc_data, s.tmc_code ≠ t) →
      ∃ row ∈ out, row.tmc_code = t ∧ row.RawDataRows = none ∧
        row.SummaryCount = none ∧ row.Reliability = none ∧
        row.Reliable = none) := by
  cases calc_mixed_traf_rel with
  | true =>
    cases hb1 : reliability_branch
        (calculate_standard_reliabily_mixed_traffic all_summaries_concat
          main_tmc_data) main_data with
    | error e =>
      simp only [calculate_standard_reliabilities, if_true, hb1] at hok
      simp at hok
    | ok part1 =>
      cases calc_truck_rel with
      | true =>
        cases hb2 : reliability_branch
            (calculate_standard_reliability_trucks all_summaries_concat
              main_tmc_data) main_data with
        | error e =>
          simp only [calculate_standard_reliabilities, if_true, hb1, hb2] at hok
          simp at hok
        | ok part2 =>
          simp only [calculate_standard_reliabilities, if_true, hb1, hb2] at hok
          simp at hok
          subst hok
          refine ⟨?_, ?_, ?_⟩
          · intro t hmem
            obtain ⟨row, hrow, hrt, _⟩ :=
              reliability_branch_covers _ _ _ hb1 t hmem
            exact ⟨row, List.mem_append_left _ hrow, hrt⟩
          · intro _ t hmem hall
            obtain ⟨row, hrow, hrt, hnull⟩ :=
              reliability_branch_covers _ _ _ hb1 t hmem
            exact ⟨row, List.mem_append_left _ hrow, hrt, hnull hall⟩
          · intro _ t hmem hall
            obtain ⟨row, hrow, hrt, hnull⟩ :=
              reliability_branch_covers _ _ _ hb2 t hmem
            exact ⟨row, List.mem_append_right _ hrow, hrt, hnull hall⟩
      | false =>
        simp only [calculate_standard_reliabilities, if_true, if_false, hb1]
          at hok
        simp at hok
        subst hok
        refine ⟨?_, ?_, ?_⟩
        · intro t hmem
          obtain ⟨row, hrow, hrt, _⟩ :=
            reliability_branch_covers _ _ _ hb1 t hmem
          exact ⟨row, hrow, hrt⟩
        · intro _ t hmem hall
          obtain ⟨row, hrow, hrt, hnull⟩ :=
            reliability_branch_covers _ _ _ hb1 t hmem
          exact ⟨row, hrow, hrt, hnull hall⟩
        · intro hct
          simp at hct
  | false =>
    cases calc_truck_rel with
    | true =>
      cases hb2 : reliability_branch
          (calculate_standard_reliability_trucks all_summaries_concat
            main_tmc_data) main_data with
      | error e =>
        simp only [calculate_standard_reliabilities, if_true, if_false, hb2]
          at hok
        simp at hok
      | ok part2 =>
        simp only [calculate_standard_reliabilities, if_true, if_false, hb2]
          at hok
        simp at hok
        subst hok
        refine ⟨?_, ?_, ?_⟩
        · intro t hmem
          obtain ⟨row, hrow, hrt, _⟩ :=
            reliability_branch_covers _ _ _ hb2 t hmem
          exact ⟨row, hrow, hrt⟩
        · intro hcm
          simp at hcm
        · intro _ t hmem hall
          obtain ⟨row, hrow, hrt, hnull⟩ :=
            reliability_branch_covers _ _ _ hb2 t hmem
          exact ⟨row, hrow, hrt, hnull hall⟩
    | false =>
      simp only [calculate_standard_reliabilities, if_false] at hok
      simp at hok

/-- Witness for C1 on the `c2_summaries` / `c1_main_data` inputs with the
mixed-traffic flag on: t1 is scored, t2 is re-added with null metrics. -/
theorem reliabilities_no_segment_lost_witness :
    (∀ t, (∃ m ∈ c1_main_data, m.tmc_code = t) →
      ∃ row ∈ c1_expected_out, row.tmc_code = t) ∧
    (true = true → ∀ t, (∃ m ∈ c1_main_data, m.tmc_code = t) →
      (∀ s ∈ calculate_standard_reliabily_mixed_traffic c2_summaries [],
        s.tmc_code ≠ t) →
      ∃ row ∈ c1_expected_out, row.tmc_code = t ∧ row.RawDataRows = none ∧
        row.SummaryCount = none ∧ row.Reliability = none ∧
        row.Reliable = none) ∧
    (false = true → ∀ t, (∃ m ∈ c1_main_data, m.tmc_code = t) →
      (∀ s ∈ calculate_standard_reliability_trucks c2_summaries [],
        s.tmc_code ≠ t) →
      ∃ row ∈ c1_expected_out, row.tmc_code = t ∧ row.RawDataRows = none ∧
        row.SummaryCount = none ∧ row.Reliability = none ∧
        row.Reliable = none) :=
  reliabilities_no_segment_lost c2_summaries c1_main_data [] true false
    c1_expected_out (by
      norm_num [calculate_standard_reliabilities, reliability_branch,
        find_missing_tmc_codes, calculate_standard_reliabily_mixed_traffic,
        reliability_scoring, rs_score_key, rs_group, rs_selected,
        drop_duplicates_first, drop_duplicates_first_aux, qmax,
        scored_to_rel, missing_rel_row, c2_summaries, c1_main_data,
        c1_expected_out]
      decide)

/-- C10: if reliability was requested for a traffic class but no segment
of that class survives the all-required-periods filter (that class's
scored table is empty), `calculate_standard_reliabilities` fails during
that class's missing-segment re-add step — it reads `data_origin` from the
first row of the empty scored table (`.values[0]`, line 1424 for mixed
traffic and line 1444 for trucks) — instead of returning a table of
all-null rows for the input segments.  The source runs the mixed branch
before the truck branch, so the truck-class conjunct asks that the mixed
branch not raise first: the mixed flag is off, or the mixed scored table
is non-empty. -/
theorem reliabilities_error_on_empty_scored
    (all_summaries_concat : List SummaryRow) (main_data : List MainRow)
    (main_tmc_data : List TmcRow) (calc_mixed_traf_rel calc_truck_rel : Bool) :
    (calc_mixed_traf_rel = true →
      calculate_standard_reliabily_mixed_traffic all_summaries_concat
        main_tmc_data = [] →
      calculate_standard_reliabilities all_summaries_concat main_data
        main_tmc_data calc_mixed_traf_rel calc_truck_rel =
        Except.error "IndexError: index 0 is out of bounds for axis 0 with size 0") ∧
    (calc_truck_rel = true →
      calculate_standard_reliability_trucks all_summaries_concat
        main_tmc_data = [] →
      (calc_mixed_traf_rel = true →
        calculate_standard_reliabily_mixed_traffic all_summaries_concat
          main_tmc_data ≠ []) →
      calculate_standard_reliabilities all_summaries_concat main_data
        main_tmc_data calc_mixed_traf_rel calc_truck_rel =
        Except.error "IndexError: index 0 is out of bounds for axis 0 with size 0") := by
  constructor
  · intro hcm hemp
    subst hcm
    simp [calculate_standard_reliabilities, reliability_branch, hemp]
  · intro hct hemp hmx
    subst hct
    cases calc_mixed_traf_rel with
    | false =>
      simp [calculate_standard_reliabilities, reliability_branch, hemp]
    | true =>
      have hne := hmx rfl
      cases hh : (calculate_standard_reliabily_mixed_traffic
          all_summaries_concat main_tmc_data).head? with
      | none => exact absurd (List.head?_eq_none_iff.mp hh) hne
      | some s0 =>
        simp [calculate_standard_reliabilities, reliability_branch, hh, hemp]

/-- Witness for C10, one instance per traffic class: with no summaries at
all, requesting mixed-traffic reliability raises; with the complete mixed
pair of `c2_summaries` and both flags on, the mixed branch completes and
the truck branch raises because no truck segment is scored. -/
theorem reliabilities_error_on_empty_scored_witness :
    calculate_standard_reliabilities [] [] [] true false =
      Except.error "IndexError: index 0 is out of bounds for axis 0 with size 0" ∧
    calculate_standard_reliabilities c2_summaries c1_main_data [] true true =
      Except.error "IndexError: index 0 is out of bounds for axis 0 with size 0" :=
  ⟨(reliabilities_error_on_empty_scored [] [] [] true false).1 rfl rfl,
   (reliabilities_error_on_empty_scored c2_summaries c1_main_data [] true
      true).2 rfl rfl (fun _ => by decide)⟩

/-- C7: every input summary row reappears in the output of
`add_geometries_to_summaries`, and every output row either carries a
shapefile geometry matching its tmc_code with
`geom_final_type = "original_tmc_shape"`, or — when no shapefile geometry
matches — carries the straight line built from the start/end coordinates
of its (data_origin, tmc_code) TMC metadata row with
`geom_final_type = "simplified_tmc_shape"`.  The hypothesis asks the TMC
metadata to cover every summary row that lacks a shapefile geometry, which
holds in the pipeline because the summaries are grouped from rows joined
against that same metadata. -/
theorem geometry_resolution (summarized_data : List SummaryRow)
    (main_tmc_data : List TmcRow) (npmrds_geodata : List GeoRow)
    (hcover : ∀ s ∈ summarized_data,
      (∀ g ∈ npmrds_geodata, g.tmc_code ≠ s.tmc_code) →
      ∃ m ∈ main_tmc_data, m.data_origin = s.data_origin ∧
        m.tmc_code = s.tmc_code) :
    (∀ s ∈ summarized_data,
      ∃ o ∈ add_geometries_to_summaries summarized_data main_tmc_data
        npmrds_geodata, o.row = s) ∧
    (∀ o ∈ add_geometries_to_summaries summarized_data main_tmc_data
        npmrds_geodata,
      o.row ∈ summarized_data ∧
      ((∃ g ∈ npmrds_geodata, g.tmc_code = o.row.tmc_code ∧
          o.geom_final = g.geometry ∧
          o.geom_final_type = "original_tmc_shape") ∨
        ((∀ g ∈ npmrds_geodata, g.tmc_code ≠ o.row.tmc_code) ∧
          (∃ m ∈ main_tmc_data, m.data_origin = o.row.data_origin ∧
            m.tmc_code = o.row.tmc_code ∧ o.geom_final = make_link m) ∧
          o.geom_final_type = "simplified_tmc_shape"))) := by
  constructor
  · intro s hs
    by_cases hm : (npmrds_geodata.filter
        (fun g => decide (g.tmc_code = s.tmc_code))).isEmpty
    · refine ⟨⟨s, geometry_simplified main_tmc_data s.data_origin s.tmc_code,
        "simplified_tmc_shape"⟩, ?_, rfl⟩
      unfold add_geometries_to_summaries
      rw [List.mem_flatMap]
      exact ⟨s, hs, by simp only [hm, if_true]; exact List.mem_singleton_self _⟩
    · have hne : npmrds_geodata.filter
          (fun g => decide (g.tmc_code = s.tmc_code)) ≠ [] := by
        simpa [List.isEmpty_iff] using hm
      obtain ⟨g, hg⟩ := List.exists_mem_of_ne_nil _ hne
      refine ⟨⟨s, g.geometry, "original_tmc_shape"⟩, ?_, rfl⟩
      unfold add_geometries_to_summaries
      rw [List.mem_flatMap]
      refine ⟨s, hs, ?_⟩
      rw [if_neg hm]
      exact List.mem_map_of_mem _ hg
  · intro o ho
    unfold add_geometries_to_summaries at ho
    rw [List.mem_flatMap] at ho
    obtain ⟨s, hs, hos⟩ := ho
    by_cases hm : (npmrds_geodata.filter
        (fun g => decide (g.tmc_code = s.tmc_code))).isEmpty
    · rw [if_pos hm] at hos
      have hose : o = ⟨s,
          geometry_simplified main_tmc_data s.data_origin s.tmc_code,
          "simplified_tmc_shape"⟩ := by
        simpa using hos
      have hnog : ∀ g ∈ npmrds_geodata, g.tmc_code ≠ s.tmc_code := by
        have := List.isEmpty_iff.mp hm
        intro g hg hgc
        have : g ∈ npmrds_geodata.filter
            (fun x => decide (x.tmc_code = s.tmc_code)) :=
          List.mem_filter.mpr ⟨hg, by simp [hgc]⟩
        rw [List.isEmpty_iff.mp hm] at this
        simp at this
      obtain ⟨m, hmm, hmd, hmt⟩ := hcover s hs hnog
      have hfind : main_tmc_data.find? (fun x =>
          decide (x.data_origin = s.data_origin) &&
          decide (x.tmc_code = s.tmc_code)) ≠ none := by
        intro hnone
        have := List.find?_eq_none.mp hnone m hmm
        simp [hmd, hmt] at this
      cases hf : main_tmc_data.find? (fun x =>
          decide (x.data_origin = s.data_origin) &&
          decide (x.tmc_code = s.tmc_code)) with
      | none => exact absurd hf hfind
      | some m0 =>
        have hm0mem := List.mem_of_find?_eq_some hf
        have hm0p := List.find?_some hf
        simp only [Bool.and_eq_true, decide_eq_true_eq] at hm0p
        subst hose
        refine ⟨hs, Or.inr ⟨hnog, ⟨m0, hm0mem, hm0p.1, hm0p.2, ?_⟩, rfl⟩⟩
        simp only [geometry_simplified, hf]
    · rw [if_neg hm] at hos
      obtain ⟨g, hgf, hgo⟩ := List.mem_map.mp hos
      have hgmem := List.mem_filter.mp hgf
      subst hgo
      exact ⟨hs, Or.inl ⟨g, hgmem.1, by simpa using hgmem.2, rfl, rfl⟩⟩

/-- Witness for C7 on the concrete shapefile/metadata rows: t1 keeps its
shapefile geometry, t2 falls back to the metadata straight line. -/
theorem geometry_resolution_witness :
    (∀ s ∈ c7_summaries,
      ∃ o ∈ add_geometries_to_summaries c7_summaries c7_tmc_data c7_geodata,
        o.row = s) ∧
    (∀ o ∈ add_geometries_to_summaries c7_summaries c7_tmc_data c7_geodata,
      o.row ∈ c7_summaries ∧
      ((∃ g ∈ c7_geodata, g.tmc_code = o.row.tmc_code ∧
          o.geom_final = g.geometry ∧
          o.geom_final_type = "original_tmc_shape") ∨
        ((∀ g ∈ c7_geodata, g.tmc_code ≠ o.row.tmc_code) ∧
          (∃ m ∈ c7_tmc_data, m.data_origin = o.row.data_origin ∧
            m.tmc_code = o.row.tmc_code ∧ o.geom_final = make_link m) ∧
          o.geom_final_type = "simplified_tmc_shape"))) :=
  geometry_resolution c7_summaries c7_tmc_data c7_geodata (by decide)

end Npmrds
